import Mathlib

/-!
Verification development for the portfolio ledger/replay/valuation subsystem
of `backend/portfolio_service.py`.

Money amounts are modelled as exact rationals (the Python source uses binary
floats; all the claim-relevant arithmetic is plain +, -, *, / and `round`,
which we model exactly over `ℚ`).  Python's `round(x, n)` (banker's rounding)
is modelled by `pyRound`.  Dates and timestamps are modelled as integers
(whole days / ordered instants), matching how the source only ever compares
and subtracts `datetime` values.
-/

namespace Invest

/-- Python `sub in s` substring test, over character lists. -/
def listIsPrefix : List Char → List Char → Bool
  | _, [] => true
  | [], _ :: _ => false
  | a :: as, b :: bs => a == b && listIsPrefix as bs

/-- Substring containment on character lists (`needle` occurs in `hay`). -/
def listContainsSub (hay needle : List Char) : Bool :=
  match hay with
  | [] => listIsPrefix [] needle
  | _ :: rest => listIsPrefix hay needle || listContainsSub rest needle

/-- Python `needle in hay` for strings. -/
def strIn (needle hay : String) : Bool :=
  listContainsSub hay.data needle.data

/-- Python `s.lower()` (sufficient for ASCII notes). -/
def strLower (s : String) : String :=
  ⟨s.data.map Char.toLower⟩

/-- Python `s.endswith(t)`. -/
def strEndsWith (s t : String) : Bool :=
  listIsPrefix s.data.reverse t.data.reverse

/-- Python `round(x, n)` on exact rationals: round half to even. -/
def pyRound (n : ℕ) (q : ℚ) : ℚ :=
  let s := q * (10 : ℚ) ^ n
  let f : ℤ := ⌊s⌋
  let r := s - (f : ℚ)
  let k : ℤ :=
    if r < 1/2 then f
    else if 1/2 < r then f + 1
    else if f % 2 = 0 then f else f + 1
  (k : ℚ) / (10 : ℚ) ^ n

/-- A ledger transaction.

Modelled from the spec: the `Transaction` ORM class is imported by
`portfolio_service.py` from `database.py` but is not present under `src/`
(only its consumers are).  Fields follow spec §3: kind tag, optional symbol,
optional quantity / TRY amount / USD amount (normalised here to `0` exactly as
every consumer does with `... or 0`), a free-text note, an explicit
trade-currency tag (`""` when absent), interest metadata, a nullable
user-supplied effective date `txDate`, and an immutable insertion timestamp
`created`. -/
structure Tx where
  id : ℤ
  tx_type : String
  symbol : Option String
  quantity : ℚ
  amount_usd : ℚ
  amount_try : ℚ
  note : String
  trade_currency : String
  txDate : Option ℤ
  created : ℤ
  interest_earned_usd : ℚ
  interest_earned_try : ℚ
deriving DecidableEq

/-- `tx.transaction_date or tx.created_at`. -/
def Tx.effDate (tx : Tx) : ℤ :=
  tx.txDate.getD tx.created

/-- Sort key of the canonical order used by every DB query:
`(transaction_date IS NULL last, transaction_date asc, created_at asc)`. -/
def Tx.sortKey (tx : Tx) : ℤ × ℤ × ℤ :=
  ((if tx.txDate = none then 1 else 0), tx.txDate.getD 0, tx.created)

/-- Lexicographic comparison of canonical sort keys. -/
def keyLE (a b : Tx) : Bool :=
  a.sortKey.1 < b.sortKey.1 ||
    (a.sortKey.1 = b.sortKey.1 &&
      (a.sortKey.2.1 < b.sortKey.2.1 ||
        (a.sortKey.2.1 = b.sortKey.2.1 && a.sortKey.2.2 ≤ b.sortKey.2.2)))

/-- Canonical ordering of the ledger (stable sort by `Tx.sortKey`). -/
def canonicalSort (txs : List Tx) : List Tx :=
  txs.insertionSort (fun a b => keyLE a b)

/-- Python truthiness of the optional symbol (`None` and `""` are falsy). -/
def symTruthy : Option String → Bool
  | none => false
  | some s => s ≠ ""

/-- The `buy`/`sell` trade-currency dispatch shared verbatim by
`pre_validate_new_transaction`, `validate_transaction_timeline`,
`_recalculate_portfolio_balances` and `_replay_state_at_date`:
`tc == 'TRY' or (not tc and tx.symbol and tx.symbol.endswith('.IS') and '₺' in note)`. -/
def tradeIsTry (tc : String) (symbol : Option String) (note : String) : Bool :=
  tc = "TRY" ||
    (tc = "" && symTruthy symbol && strEndsWith (symbol.getD "") ".IS" && strIn "₺" note)

/-- Running state of the two timeline validators (cash and interest balances
plus a holdings dictionary read with `.get(sym, 0)` semantics). -/
structure VState where
  cash_usd : ℚ
  cash_try : ℚ
  interest_usd : ℚ
  interest_try : ℚ
  holdings : Option String → ℚ

/-- Zero initial validator state. -/
def VState.init : VState :=
  ⟨0, 0, 0, 0, fun _ => 0⟩

/-- `TOLERANCE = -0.01` of `pre_validate_new_transaction`. -/
def preTOL : ℚ := -(1/100)

/-- One step of the `pre_validate_new_transaction` replay walk
(`portfolio_service.py` lines 1426-1507); `none` means the structured
`{valid: False, ...}` early return. -/
def preStep (v : VState) (e : Tx) : Option VState :=
  if e.tx_type = "deposit" then
    if strIn "$" e.note then some { v with cash_usd := v.cash_usd + e.amount_usd }
    else some { v with cash_try := v.cash_try + e.amount_try }
  else if e.tx_type = "withdraw" then
    if strIn "TRY" e.note then
      if v.cash_try + preTOL < e.amount_try then none
      else some { v with cash_try := v.cash_try - e.amount_try }
    else
      if v.cash_usd + preTOL < e.amount_usd then none
      else some { v with cash_usd := v.cash_usd - e.amount_usd }
  else if e.tx_type = "buy" then
    if tradeIsTry e.trade_currency e.symbol e.note then
      if v.cash_try + preTOL < e.amount_try then none
      else some { v with cash_try := v.cash_try - e.amount_try,
                         holdings := fun k =>
                           if k = e.symbol then v.holdings e.symbol + e.quantity
                           else v.holdings k }
    else
      if v.cash_usd + preTOL < e.amount_usd then none
      else some { v with cash_usd := v.cash_usd - e.amount_usd,
                         holdings := fun k =>
                           if k = e.symbol then v.holdings e.symbol + e.quantity
                           else v.holdings k }
  else if e.tx_type = "sell" then
    if v.holdings e.symbol + preTOL < e.quantity then none
    else
      let v' := { v with holdings := fun k =>
                    if k = e.symbol then v.holdings e.symbol - e.quantity
                    else v.holdings k }
      if tradeIsTry e.trade_currency e.symbol e.note then
        some { v' with cash_try := v'.cash_try + e.amount_try }
      else
        some { v' with cash_usd := v'.cash_usd + e.amount_usd }
  else if e.tx_type = "interest_in" then
    if strIn "TRY" e.note then
      if v.cash_try + preTOL < e.amount_try then none
      else some { v with cash_try := v.cash_try - e.amount_try,
                         interest_try := v.interest_try + e.amount_try }
    else
      if v.cash_usd + preTOL < e.amount_usd then none
      else some { v with cash_usd := v.cash_usd - e.amount_usd,
                         interest_usd := v.interest_usd + e.amount_usd }
  else if e.tx_type = "interest_out" then
    if strIn "TRY" e.note then
      let principal := e.amount_try - e.interest_earned_try
      if v.interest_try + preTOL < principal then none
      else some { v with interest_try := v.interest_try - principal,
                         cash_try := v.cash_try + e.amount_try }
    else
      let principal := e.amount_usd - e.interest_earned_usd
      if v.interest_usd + preTOL < principal then none
      else some { v with interest_usd := v.interest_usd - principal,
                         cash_usd := v.cash_usd + e.amount_usd }
  else if e.tx_type = "exchange" then
    if strIn "Bought" e.note || strIn "buy" (strLower e.note) then
      if v.cash_try + preTOL < e.amount_try then none
      else some { v with cash_try := v.cash_try - e.amount_try,
                         cash_usd := v.cash_usd + e.amount_usd }
    else
      if v.cash_usd + preTOL < e.amount_usd then none
      else some { v with cash_usd := v.cash_usd - e.amount_usd,
                         cash_try := v.cash_try + e.amount_try }
  else some v

/-- Full walk of `pre_validate_new_transaction` over an ordered entry list. -/
def preRun (v : VState) : List Tx → Option VState
  | [] => some v
  | e :: es =>
    match preStep v e with
    | none => none
    | some v' => preRun v' es

/-- `pre_validate_new_transaction` acceptance on an already-ordered entry
list (`{valid: True}` iff `true`). -/
def preValidateEntries (es : List Tx) : Bool :=
  (preRun VState.init es).isSome

/-- `pre_validate_new_transaction` itself: canonical query order, the new
entry appended, then the stable re-sort `key=(date is None, date)` (dates
are never `None` here, so the key is the effective date alone). -/
def preValidate (txs : List Tx) (newTx : Tx) : Bool :=
  preValidateEntries
    ((canonicalSort txs ++ [newTx]).insertionSort
      (fun a b => a.effDate ≤ b.effDate))

/-- One step of `validate_transaction_timeline`
(`portfolio_service.py` lines 1533-1613): same per-kind effects as
`preStep` but with zero tolerance, and the withdraw check additionally
requires the amount to be positive. -/
def tlStep (v : VState) (e : Tx) : Option VState :=
  if e.tx_type = "deposit" then
    if strIn "$" e.note then some { v with cash_usd := v.cash_usd + e.amount_usd }
    else some { v with cash_try := v.cash_try + e.amount_try }
  else if e.tx_type = "withdraw" then
    if strIn "TRY" e.note then
      if 0 < e.amount_try ∧ v.cash_try < e.amount_try then none
      else some { v with cash_try := v.cash_try - e.amount_try }
    else
      if 0 < e.amount_usd ∧ v.cash_usd < e.amount_usd then none
      else some { v with cash_usd := v.cash_usd - e.amount_usd }
  else if e.tx_type = "buy" then
    if tradeIsTry e.trade_currency e.symbol e.note then
      if v.cash_try < e.amount_try then none
      else some { v with cash_try := v.cash_try - e.amount_try,
                         holdings := fun k =>
                           if k = e.symbol then v.holdings e.symbol + e.quantity
                           else v.holdings k }
    else
      if v.cash_usd < e.amount_usd then none
      else some { v with cash_usd := v.cash_usd - e.amount_usd,
                         holdings := fun k =>
                           if k = e.symbol then v.holdings e.symbol + e.quantity
                           else v.holdings k }
  else if e.tx_type = "sell" then
    if v.holdings e.symbol < e.quantity then none
    else
      let v' := { v with holdings := fun k =>
                    if k = e.symbol then v.holdings e.symbol - e.quantity
                    else v.holdings k }
      if tradeIsTry e.trade_currency e.symbol e.note then
        some { v' with cash_try := v'.cash_try + e.amount_try }
      else
        some { v' with cash_usd := v'.cash_usd + e.amount_usd }
  else if e.tx_type = "interest_in" then
    if strIn "TRY" e.note then
      if v.cash_try < e.amount_try then none
      else some { v with cash_try := v.cash_try - e.amount_try,
                         interest_try := v.interest_try + e.amount_try }
    else
      if v.cash_usd < e.amount_usd then none
      else some { v with cash_usd := v.cash_usd - e.amount_usd,
                         interest_usd := v.interest_usd + e.amount_usd }
  else if e.tx_type = "interest_out" then
    if strIn "TRY" e.note then
      let principal := e.amount_try - e.interest_earned_try
      if v.interest_try < principal then none
      else some { v with interest_try := v.interest_try - principal,
                         cash_try := v.cash_try + e.amount_try }
    else
      let principal := e.amount_usd - e.interest_earned_usd
      if v.interest_usd < principal then none
      else some { v with interest_usd := v.interest_usd - principal,
                         cash_usd := v.cash_usd + e.amount_usd }
  else if e.tx_type = "exchange" then
    if strIn "Bought" e.note || strIn "buy" (strLower e.note) then
      if v.cash_try < e.amount_try then none
      else some { v with cash_try := v.cash_try - e.amount_try,
                         cash_usd := v.cash_usd + e.amount_usd }
    else
      if v.cash_usd < e.amount_usd then none
      else some { v with cash_usd := v.cash_usd - e.amount_usd,
                         cash_try := v.cash_try + e.amount_try }
  else some v

/-- Full walk of `validate_transaction_timeline` over an ordered list. -/
def tlRun (v : VState) : List Tx → Option VState
  | [] => some v
  | e :: es =>
    match tlStep v e with
    | none => none
    | some v' => tlRun v' es

/-- `validate_transaction_timeline` acceptance on an ordered list. -/
def tlValidateEntries (es : List Tx) : Bool :=
  (tlRun VState.init es).isSome

/-- `validate_transaction_timeline(db, pid, exclude_tx_id)`: filter the
excluded id (skipped when the id is falsy, i.e. `0` or absent), canonical
order, then the zero-tolerance walk. -/
def validateTimeline (txs : List Tx) (excludeTxId : Option ℤ) : Bool :=
  let txs' := match excludeTxId with
    | none => txs
    | some i => if i = 0 then txs else txs.filter (fun tx => tx.id ≠ i)
  tlValidateEntries (canonicalSort txs')

/-- Per-symbol holding record of the replay engine (`qty`, `total_cost_usd`). -/
structure HRec where
  qty : ℚ
  total_cost_usd : ℚ
deriving DecidableEq

/-- Replay-engine state (`_replay_state_at_date`): balances, deposit totals,
and a holdings dictionary (`none` = key absent). -/
structure RState where
  cash_try : ℚ
  cash_usd : ℚ
  interest_try : ℚ
  interest_usd : ℚ
  total_deposited_try : ℚ
  total_deposited_usd : ℚ
  holdings : Option String → Option HRec

/-- Zero initial replay state. -/
def RState.init : RState :=
  ⟨0, 0, 0, 0, 0, 0, fun _ => none⟩

/-- Quantity held of a symbol in a replay state (0 when absent). -/
def RState.qtyOf (s : RState) (k : Option String) : ℚ :=
  match s.holdings k with
  | none => 0
  | some r => r.qty

/-- Per-kind effect of one transaction in `_replay_state_at_date`
(`portfolio_service.py` lines 1824-1894). -/
def replayStep (s : RState) (tx : Tx) : RState :=
  if tx.tx_type = "deposit" then
    let s' := if strIn "$" tx.note
      then { s with cash_usd := s.cash_usd + tx.amount_usd }
      else { s with cash_try := s.cash_try + tx.amount_try }
    { s' with total_deposited_try := s'.total_deposited_try + tx.amount_try,
              total_deposited_usd := s'.total_deposited_usd + tx.amount_usd }
  else if tx.tx_type = "withdraw" then
    if strIn "TRY" tx.note then { s with cash_try := s.cash_try - tx.amount_try }
    else { s with cash_usd := s.cash_usd - tx.amount_usd }
  else if tx.tx_type = "exchange" then
    if strIn "Bought" tx.note || strIn "buy" (strLower tx.note) then
      { s with cash_try := s.cash_try - tx.amount_try,
               cash_usd := s.cash_usd + tx.amount_usd }
    else
      { s with cash_usd := s.cash_usd - tx.amount_usd,
               cash_try := s.cash_try + tx.amount_try }
  else if tx.tx_type = "buy" then
    let s' := if tradeIsTry tx.trade_currency tx.symbol tx.note
      then { s with cash_try := s.cash_try - tx.amount_try }
      else { s with cash_usd := s.cash_usd - tx.amount_usd }
    let old : HRec := (s'.holdings tx.symbol).getD ⟨0, 0⟩
    { s' with holdings := fun k =>
        if k = tx.symbol then
          some ⟨old.qty + tx.quantity, old.total_cost_usd + tx.amount_usd⟩
        else s'.holdings k }
  else if tx.tx_type = "sell" then
    let s' :=
      match s.holdings tx.symbol with
      | none => s
      | some old =>
        let sellQty := tx.quantity
        let cost' :=
          if 0 < old.qty ∧ 0 < sellQty then
            old.total_cost_usd - min (sellQty / old.qty) 1 * old.total_cost_usd
          else old.total_cost_usd
        let newRec : HRec :=
          if old.qty - sellQty ≤ 1/10000 then ⟨0, 0⟩
          else ⟨old.qty - sellQty, cost'⟩
        { s with holdings := fun k =>
            if k = tx.symbol then some newRec else s.holdings k }
    if tradeIsTry tx.trade_currency tx.symbol tx.note then
      { s' with cash_try := s'.cash_try + tx.amount_try }
    else
      { s' with cash_usd := s'.cash_usd + tx.amount_usd }
  else if tx.tx_type = "interest_in" then
    if strIn "TRY" tx.note then
      { s with cash_try := s.cash_try - tx.amount_try,
               interest_try := s.interest_try + tx.amount_try }
    else
      { s with cash_usd := s.cash_usd - tx.amount_usd,
               interest_usd := s.interest_usd + tx.amount_usd }
  else if tx.tx_type = "interest_out" then
    if strIn "TRY" tx.note then
      { s with interest_try := s.interest_try - (tx.amount_try - tx.interest_earned_try),
               cash_try := s.cash_try + tx.amount_try }
    else
      { s with interest_usd := s.interest_usd - (tx.amount_usd - tx.interest_earned_usd),
               cash_usd := s.cash_usd + tx.amount_usd }
  else s

/-- Replay over a whole ordered list (no cutoff). -/
def replayList (es : List Tx) : RState :=
  es.foldl replayStep RState.init

/-- The cutoff loop of `_replay_state_at_date`: the walk stops (`break`) at
the first transaction whose effective date exceeds the cutoff. -/
def replayAux (s : RState) : List Tx → ℤ → RState
  | [], _ => s
  | tx :: rest, cutoff =>
    if cutoff < tx.effDate then s
    else replayAux (replayStep s tx) rest cutoff

/-- Final holdings cleanup of `_replay_state_at_date`: drop entries with
`qty <= 0.0001`. -/
def cleanHoldings (h : Option String → Option HRec) : Option String → Option HRec :=
  fun k => match h k with
    | none => none
    | some r => if 1/10000 < r.qty then some r else none

/-- `_replay_state_at_date(transactions, cutoff)`. -/
def replayStateAtDate (es : List Tx) (cutoff : ℤ) : RState :=
  let s := replayAux RState.init es cutoff
  { s with holdings := cleanHoldings s.holdings }

/-- Per-kind effect of one transaction in `_recalculate_portfolio_balances`
(`portfolio_service.py` lines 1686-1751).  Identical to `replayStep` except
for the `sell` holding update, which reduces the cost basis only when the
post-sale quantity is positive and never clamps small residues to zero. -/
def recalcStep (s : RState) (tx : Tx) : RState :=
  if tx.tx_type = "deposit" then
    let s' := if strIn "$" tx.note
      then { s with cash_usd := s.cash_usd + tx.amount_usd }
      else { s with cash_try := s.cash_try + tx.amount_try }
    { s' with total_deposited_usd := s'.total_deposited_usd + tx.amount_usd,
              total_deposited_try := s'.total_deposited_try + tx.amount_try }
  else if tx.tx_type = "withdraw" then
    if strIn "TRY" tx.note then { s with cash_try := s.cash_try - tx.amount_try }
    else { s with cash_usd := s.cash_usd - tx.amount_usd }
  else if tx.tx_type = "buy" then
    let s' := if tradeIsTry tx.trade_currency tx.symbol tx.note
      then { s with cash_try := s.cash_try - tx.amount_try }
      else { s with cash_usd := s.cash_usd - tx.amount_usd }
    let old : HRec := (s'.holdings tx.symbol).getD ⟨0, 0⟩
    { s' with holdings := fun k =>
        if k = tx.symbol then
          some ⟨old.qty + tx.quantity, old.total_cost_usd + tx.amount_usd⟩
        else s'.holdings k }
  else if tx.tx_type = "sell" then
    let s' :=
      match s.holdings tx.symbol with
      | none => s
      | some old =>
        let q' := old.qty - tx.quantity
        let newRec : HRec :=
          if 0 < q' then
            ⟨q', old.total_cost_usd - tx.quantity / (q' + tx.quantity) * old.total_cost_usd⟩
          else ⟨q', 0⟩
        { s with holdings := fun k =>
            if k = tx.symbol then some newRec else s.holdings k }
    if tradeIsTry tx.trade_currency tx.symbol tx.note then
      { s' with cash_try := s'.cash_try + tx.amount_try }
    else
      { s' with cash_usd := s'.cash_usd + tx.amount_usd }
  else if tx.tx_type = "interest_in" then
    if strIn "TRY" tx.note then
      { s with cash_try := s.cash_try - tx.amount_try,
               interest_try := s.interest_try + tx.amount_try }
    else
      { s with cash_usd := s.cash_usd - tx.amount_usd,
               interest_usd := s.interest_usd + tx.amount_usd }
  else if tx.tx_type = "interest_out" then
    if strIn "TRY" tx.note then
      { s with interest_try := s.interest_try - (tx.amount_try - tx.interest_earned_try),
               cash_try := s.cash_try + tx.amount_try }
    else
      { s with interest_usd := s.interest_usd - (tx.amount_usd - tx.interest_earned_usd),
               cash_usd := s.cash_usd + tx.amount_usd }
  else if tx.tx_type = "exchange" then
    if strIn "Bought" tx.note || strIn "buy" (strLower tx.note) then
      { s with cash_try := s.cash_try - tx.amount_try,
               cash_usd := s.cash_usd + tx.amount_usd }
    else
      { s with cash_usd := s.cash_usd - tx.amount_usd,
               cash_try := s.cash_try + tx.amount_try }
  else s

/-- Portfolio cached state (the `Portfolio` row plus its `Holding` rows,
each holding a `(quantity, avg_cost_usd)` pair).

Modelled from the spec: the `Portfolio`/`Holding` ORM classes are imported
from `database.py` but are not present under `src/`; fields follow spec §3. -/
structure PState where
  cash_usd : ℚ
  cash_try : ℚ
  interest_balance_usd : ℚ
  interest_balance_try : ℚ
  total_deposited_usd : ℚ
  total_deposited_try : ℚ
  holdings : Option String → Option (ℚ × ℚ)

/-- All-zero portfolio. -/
def PState.init : PState := ⟨0, 0, 0, 0, 0, 0, fun _ => none⟩

/-- The holdings rebuild at the end of `_recalculate_portfolio_balances`:
keep symbols with `quantity > 0.0001`, with
`avg_cost_usd = total_cost / quantity if quantity > 0 else 0`. -/
def recalcFinalHoldings (h : Option String → Option HRec) :
    Option String → Option (ℚ × ℚ) :=
  fun k => match h k with
    | none => none
    | some r =>
      if 1/10000 < r.qty then
        some (r.qty, if 0 < r.qty then r.total_cost_usd / r.qty else 0)
      else none

/-- `_recalculate_portfolio_balances`: reset, replay the canonically ordered
log with `recalcStep`, then rebuild the holdings rows. -/
def recalcPortfolio (txs : List Tx) : PState :=
  let s := (canonicalSort txs).foldl recalcStep RState.init
  ⟨s.cash_usd, s.cash_try, s.interest_usd, s.interest_try,
   s.total_deposited_usd, s.total_deposited_try,
   recalcFinalHoldings s.holdings⟩

/-- `delete_transaction` (`portfolio_service.py` lines 1618-1656):
not-found and failed-validation branches return an error with nothing
changed; otherwise the transaction is removed and the portfolio is rebuilt
by `_recalculate_portfolio_balances`.  Result flag is `true` on success. -/
def deleteTransaction (p : PState) (txs : List Tx) (txId : ℤ) :
    PState × List Tx × Bool :=
  match txs.find? (fun tx => tx.id = txId) with
  | none => (p, txs, false)
  | some _ =>
    if validateTimeline txs (some txId) then
      let remaining := txs.filter (fun tx => tx.id ≠ txId)
      (recalcPortfolio remaining, remaining, true)
    else (p, txs, false)

/-- `deposit(db, username, amount_try, ...)` — records the TRY amount into
`cash_try` and both deposit totals; the USD equivalent is
`round(amount_try / rate, 4)`.  Never fails. -/
def deposit (p : PState) (amount_try rate : ℚ) : PState × Option String :=
  let amount_usd := pyRound 4 (amount_try / rate)
  ({ p with total_deposited_try := p.total_deposited_try + amount_try,
            total_deposited_usd := p.total_deposited_usd + amount_usd,
            cash_try := p.cash_try + amount_try }, none)

/-- `withdraw(db, username, amount_usd, ...)` — USD withdrawal from the
cached USD cash balance; fails with a plain error string when short. -/
def withdraw (p : PState) (amount_usd : ℚ) : PState × Option String :=
  if p.cash_usd < amount_usd then (p, some "Insufficient USD cash balance")
  else ({ p with cash_usd := p.cash_usd - amount_usd }, none)

/-- The non-BIST branch of `buy_asset` specialised to an explicitly given
positive quantity and custom price (`portfolio_service.py` lines 715-790):
cost check against `cash_usd`, weighted-average cost-basis update. -/
def buyAssetUsd (p : PState) (symbol : String) (quantity price_usd : ℚ) :
    PState × Option String :=
  let total_cost := pyRound 4 (price_usd * quantity)
  if p.cash_usd < total_cost then
    (p, some "Insufficient cash")
  else
    let holdings' := fun k =>
      if k = some symbol then
        match p.holdings (some symbol) with
        | some (q, avg) =>
          some (q + quantity, pyRound 4 ((avg * q + price_usd * quantity) / (q + quantity)))
        | none => some (quantity, price_usd)
      else p.holdings k
    ({ p with cash_usd := p.cash_usd - total_cost, holdings := holdings' }, none)

/-- The non-BIST branch of `sell_asset` specialised to an explicitly given
quantity and custom price (`portfolio_service.py` lines 886-948).  Returns
the new state, an error when holdings are short, and the realized P&L. -/
def sellAssetUsd (p : PState) (symbol : String) (quantity price_usd : ℚ) :
    PState × Option String × ℚ :=
  match p.holdings (some symbol) with
  | none => (p, some "Insufficient holdings", 0)
  | some (q, avg) =>
    if q < quantity then (p, some "Insufficient holdings", 0)
    else
      let total_value := pyRound 4 (price_usd * quantity)
      let pnl := pyRound 4 ((price_usd - avg) * quantity)
      let holdings' := fun k =>
        if k = some symbol then
          (if q - quantity ≤ 1/10000 then none else some (q - quantity, avg))
        else p.holdings k
      ({ p with cash_usd := p.cash_usd + total_value, holdings := holdings' },
       none, pnl)

/-- An external cash flow collected by `_get_external_flows`. -/
structure Flow where
  date : ℤ
  amount_try : ℚ
  amount_usd : ℚ

/-- `_get_external_flows(transactions, start, end)`: deposits positive,
withdrawals negative, effective date strictly inside `(start, end]`. -/
def externalFlows : List Tx → ℤ → ℤ → List Flow
  | [], _, _ => []
  | tx :: rest, s, e =>
    let d := tx.effDate
    if d ≤ s ∨ e < d then externalFlows rest s e
    else if tx.tx_type = "deposit" then
      ⟨d, tx.amount_try, tx.amount_usd⟩ :: externalFlows rest s e
    else if tx.tx_type = "withdraw" then
      ⟨d, -tx.amount_try, -tx.amount_usd⟩ :: externalFlows rest s e
    else externalFlows rest s e

/-- Sum of a flow attribute. -/
def sumBy (f : Flow → ℚ) (flows : List Flow) : ℚ :=
  (flows.map f).sum

/-- Result of the full-portfolio (Modified Dietz) branch of
`calculate_period_pnl`, step 7. -/
structure PeriodPnl where
  pnl_try : ℚ
  pnl_usd : ℚ
  pct_try : ℚ
  pct_usd : ℚ

/-- The full-portfolio flow/P&L computation of `calculate_period_pnl`
(`portfolio_service.py` lines 2135-2157), parametrised by the start/end
valuations (`_value_state` totals). -/
def periodPnlFull (txs : List Tx) (startD endD : ℤ)
    (startTry endTry startUsd endUsd : ℚ) : PeriodPnl :=
  let flows := externalFlows txs startD endD
  let totalDays : ℤ := max (endD - startD) 1
  let inflow_try := sumBy (fun f => if 0 < f.amount_try then f.amount_try else 0) flows
  let outflow_try := sumBy (fun f => if f.amount_try < 0 then |f.amount_try| else 0) flows
  let net_try := inflow_try - outflow_try
  let inflow_usd := sumBy (fun f => if 0 < f.amount_usd then f.amount_usd else 0) flows
  let outflow_usd := sumBy (fun f => if f.amount_usd < 0 then |f.amount_usd| else 0) flows
  let net_usd := inflow_usd - outflow_usd
  let pnl_try := endTry - startTry - net_try
  let pnl_usd := endUsd - startUsd - net_usd
  let weighted_try := sumBy
    (fun f => f.amount_try * ((max (totalDays - (f.date - startD)) 0 : ℤ) : ℚ) / (totalDays : ℚ)) flows
  let weighted_usd := sumBy
    (fun f => f.amount_usd * ((max (totalDays - (f.date - startD)) 0 : ℤ) : ℚ) / (totalDays : ℚ)) flows
  let base_try := startTry + weighted_try
  let base_usd := startUsd + weighted_usd
  let pct_try := pyRound 2 (if 1/100 < |base_try| then pnl_try / base_try * 100 else 0)
  let pct_usd := pyRound 2 (if 1/10000 < |base_usd| then pnl_usd / base_usd * 100 else 0)
  ⟨pnl_try, pnl_usd, pct_try, pct_usd⟩

/-! ### Calendar model

`_get_inflation_factor` works on `datetime` values through quarter
arithmetic and day differences.  We model calendar dates (at midnight) by
year/month/day triples and a proleptic Gregorian day count, so that
`(a - b).days = dayNumber a - dayNumber b`. -/

/-- Gregorian leap year. -/
def isLeap (y : ℤ) : Bool :=
  (y % 4 = 0 && y % 100 ≠ 0) || y % 400 = 0

/-- Number of leap years in `[1, y]` (for `y ≥ 0`). -/
def leapsUpTo (y : ℤ) : ℤ :=
  y / 4 - y / 100 + y / 400

/-- Days before the first of month `m` in year `y` (`m` in `1..12`). -/
def daysBeforeMonth (y m : ℤ) : ℤ :=
  (if m = 1 then 0 else if m = 2 then 31 else if m = 3 then 59
   else if m = 4 then 90 else if m = 5 then 120 else if m = 6 then 151
   else if m = 7 then 181 else if m = 8 then 212 else if m = 9 then 243
   else if m = 10 then 273 else if m = 11 then 304 else 334)
  + (if 2 < m && isLeap y then 1 else 0)

/-- A calendar date (midnight `datetime`). -/
structure Date where
  year : ℤ
  month : ℤ
  day : ℤ
deriving DecidableEq

/-- Absolute (proleptic Gregorian) day number of a date. -/
def Date.dayNumber (d : Date) : ℤ :=
  365 * (d.year - 1) + leapsUpTo (d.year - 1) + daysBeforeMonth d.year d.month + d.day

/-- `date_to_quarter` as a single integer index `4*year + (quarter - 1)`;
the code's lexicographic `(year, quarter)` walk is order-isomorphic to this
index. -/
def Date.qIdx (d : Date) : ℤ :=
  4 * d.year + (d.month - 1) / 3

/-- `quarter_start(year, q)` as a day number, from the quarter index
(`quarter_end(year, q)` is `quarterStartD (qi + 1)`, exactly as in the
source where Q4's end is January 1 of the next year). -/
def quarterStartD (qi : ℤ) : ℤ :=
  Date.dayNumber ⟨qi / 4, 3 * (qi % 4) + 1, 1⟩

/-- A quarterly CPI observation `{year, quarter, value}` as fetched by
`_fetch_cpi_data` (an external provider, hence a parameter everywhere). -/
structure CpiEntry where
  year : ℤ
  quarter : ℤ
  value : ℚ
deriving DecidableEq

/-- The `cpi_map` dictionary keyed by quarter (`"{year}-Q{quarter}"` in the
source, the quarter index here); later entries overwrite earlier ones. -/
def cpiLookup : List CpiEntry → ℤ → Option ℚ
  | [], _ => none
  | e :: rest, qi =>
    match cpiLookup rest qi with
    | some v => some v
    | none => if 4 * e.year + (e.quarter - 1) = qi then some e.value else none

/-- Python truthiness of an optional CPI value (`None` and `0.0` falsy). -/
def cpiTruthy : Option ℚ → Bool
  | none => false
  | some v => v ≠ 0

/-- The value behind an optional CPI entry (only used when truthy). -/
def cpiVal (o : Option ℚ) : ℚ := o.getD 0

/-- Contribution of one quarter `curr` to the inflation factor
(`portfolio_service.py` lines 214-254): with published positive CPI for the
quarter and its predecessor, multiply by
`(cpi_curr / cpi_prev) ^ (-exponent)` where the exponent covers the quarter
fraction (from-quarter: from `from_date` to quarter end; to-quarter: from
quarter start to `to_date`; interior: the whole quarter); when the
to-quarter is unpublished, fall back to the expected annual rate. -/
noncomputable def quarterContrib (cpi : ℤ → Option ℚ) (expected : Option ℚ)
    (fromDay toDay fromQ toQ curr : ℤ) : ℝ :=
  if cpiTruthy (cpi curr) && cpiTruthy (cpi (curr - 1)) &&
      decide (0 < cpiVal (cpi (curr - 1))) then
    let base : ℚ := cpiVal (cpi curr) / cpiVal (cpi (curr - 1))
    let total : ℤ := quarterStartD (curr + 1) - quarterStartD curr
    let daysIn : ℤ :=
      if curr = fromQ then quarterStartD (curr + 1) - fromDay
      else if curr = toQ then toDay - quarterStartD curr
      else total
    let expo : ℚ := if 0 < total then (daysIn : ℚ) / (total : ℚ) else 1
    (base : ℝ) ^ (-(expo : ℝ))
  else if curr = toQ && !cpiTruthy (cpi curr) then
    match expected with
    | some annualPct =>
      let quarterly : ℝ := (1 + (annualPct : ℝ) / 100) ^ ((1 : ℝ) / 4) - 1
      let total : ℤ := quarterStartD (curr + 1) - quarterStartD curr
      let daysIn : ℤ := toDay - quarterStartD curr
      let expo : ℚ := if 0 < total then (daysIn : ℚ) / (total : ℚ) else 1
      (1 + quarterly) ^ (-(expo : ℝ))
    | none => 1
  else 1

/-- The quarter walk `while (curr_y, curr_q) <= (to_y, to_q)`, with fuel
equal to the number of iterations. -/
noncomputable def inflationLoop (cpi : ℤ → Option ℚ) (expected : Option ℚ)
    (fromDay toDay fromQ toQ : ℤ) : ℕ → ℤ → ℝ
  | 0, _ => 1
  | n + 1, curr =>
    quarterContrib cpi expected fromDay toDay fromQ toQ curr *
      inflationLoop cpi expected fromDay toDay fromQ toQ n (curr + 1)

/-- `_get_inflation_factor(from_date, to_date)`, parametrised by the fetched
CPI list and the expected-CPI fallback (both external providers). -/
noncomputable def inflationFactor (cpiData : List CpiEntry) (expected : Option ℚ)
    (fromDate toDate : Date) : ℝ :=
  if cpiData = [] then 1
  else
    let fromQ := fromDate.qIdx
    let toQ := toDate.qIdx
    inflationLoop (cpiLookup cpiData) expected
      fromDate.dayNumber toDate.dayNumber fromQ toQ
      (toQ - fromQ + 1).toNat fromQ

/-- Python `round(x, 6)` on reals (round half to even). -/
noncomputable def pyRoundR (n : ℕ) (x : ℝ) : ℝ :=
  let s := x * (10 : ℝ) ^ n
  let f : ℤ := ⌊s⌋
  let r := s - (f : ℝ)
  let k : ℤ :=
    if r < 1/2 then f
    else if 1/2 < r then f + 1
    else if f % 2 = 0 then f else f + 1
  (k : ℝ) / (10 : ℝ) ^ n

/-- `_inflation_multiplier(from_date, to_date)`
(`portfolio_service.py` lines 2011-2020). -/
noncomputable def inflationMultiplier (cpiData : List CpiEntry) (expected : Option ℚ)
    (fromDate toDate : Date) : ℝ :=
  let factor := inflationFactor cpiData expected fromDate toDate
  if factor ≤ 0 ∨ 2 < factor then 1
  else pyRoundR 6 (1 / factor)

/-- What spec-style "filter" replay semantics would be: apply every
transaction whose effective (or insertion) date is at most the cutoff. -/
def replayFilterSem (es : List Tx) (cutoff : ℤ) : RState :=
  (es.filter (fun tx => tx.effDate ≤ cutoff)).foldl replayStep RState.init

/-- C3: a dated transaction effective after the cutoff, canonically ordered
before an undated one whose insertion timestamp is within the cutoff. -/
def c3Dated : Tx :=
  ⟨1, "deposit", none, 0, 0, 100, "", "", some 10, 1, 0, 0⟩

/-- C3: undated USD deposit inserted at time 3. -/
def c3Undated : Tx :=
  ⟨2, "deposit", none, 0, 100, 0, "$d", "", none, 3, 0, 0⟩

/-- C4: a USD-tagged deposit whose note contains a dollar sign. -/
def c4NoteUsd : Tx :=
  ⟨1, "deposit", none, 0, 5, 200, "$", "TRY", some 1, 1, 0, 0⟩

/-- C4: the identical transaction with a neutral note. -/
def c4NotePlain : Tx :=
  ⟨1, "deposit", none, 0, 5, 200, "x", "TRY", some 1, 1, 0, 0⟩

/-- C4 witness input: a tagged USD buy with an arbitrary note. -/
def c4Buy : Tx :=
  ⟨3, "buy", some "AAPL", 2, 300, 0, "Bought 2 AAPL", "USD", some 1, 1, 0, 0⟩

/-- C6: the scenario's starting portfolio with 1000 USD cash. -/
def c6Start : PState := { PState.init with cash_usd := 1000 }

/-- Real-world well-formedness of a transaction: quantities and amounts are
nonnegative (as produced by every write path of the service). -/
def TxNonneg (e : Tx) : Prop :=
  0 ≤ e.quantity ∧ 0 ≤ e.amount_usd ∧ 0 ≤ e.amount_try

/-- All balances and holding quantities of a replay state are nonnegative. -/
def NonnegR (r : RState) : Prop :=
  0 ≤ r.cash_try ∧ 0 ≤ r.cash_usd ∧ 0 ≤ r.interest_try ∧ 0 ≤ r.interest_usd ∧
  ∀ k rec, r.holdings k = some rec → 0 ≤ rec.qty

/-- The validator's running balances agree with the replay-engine state. -/
def Rel (v : VState) (r : RState) : Prop :=
  v.cash_try = r.cash_try ∧ v.cash_usd = r.cash_usd ∧
  v.interest_try = r.interest_try ∧ v.interest_usd = r.interest_usd ∧
  ∀ k, v.holdings k = r.qtyOf k

/-- C1 witness input: a TRY deposit followed by a covered TRY withdrawal. -/
def c1wDep : Tx := ⟨1, "deposit", none, 0, 0, 100, "", "", some 1, 1, 0, 0⟩

/-- C1 witness input: the covered withdrawal. -/
def c1wWd : Tx := ⟨2, "withdraw", none, 0, 0, 50, "TRY", "", some 2, 2, 0, 0⟩

/-- C2: TRY deposit of 100 at effective time 1. -/
def c2Dep : Tx := ⟨1, "deposit", none, 0, 0, 100, "x", "", some 1, 1, 0, 0⟩

/-- C2: TRY withdrawal of the full 100 balance at effective time 2. -/
def c2Wd : Tx := ⟨2, "withdraw", none, 0, 0, 100, "TRY w", "", some 2, 2, 0, 0⟩

/-- C2 witness input: a USD deposit. -/
def c2wDep : Tx := ⟨1, "deposit", none, 0, 40, 0, "$ deposit", "", some 1, 1, 0, 0⟩

/-- C2 witness input: a covered USD withdrawal. -/
def c2wWd : Tx := ⟨2, "withdraw", none, 0, 10, 0, "w", "", some 2, 2, 0, 0⟩

/-- C10 witness date. -/
def c10D : Date := ⟨2023, 1, 1⟩

/-- A sell step on this state leaves either exactly zero or strictly more
than the 1e-4 dust threshold of the holding (the regime where
`_recalculate_portfolio_balances` and `_replay_state_at_date` agree). -/
def noDustOkB (r : RState) (e : Tx) : Bool :=
  if e.tx_type = "sell" then
    match r.holdings e.symbol with
    | none => true
    | some old =>
      decide (old.qty - e.quantity = 0) || decide (1/10000 < old.qty - e.quantity)
  else true

/-- `noDustOkB` along a whole replay run. -/
def noDustRun (r : RState) : List Tx → Bool
  | [] => true
  | e :: es => noDustOkB r e && noDustRun (replayStep r e) es

/-- C9 counterexample input: USD deposit of 10. -/
def c9x1 : Tx := ⟨1, "deposit", none, 0, 10, 0, "$d", "", some 1, 1, 0, 0⟩

/-- C9 counterexample input: buy 0.00005 AAPL for 1 USD. -/
def c9x2 : Tx := ⟨2, "buy", some "AAPL", 1/20000, 1, 0, "", "USD", some 2, 2, 0, 0⟩

/-- C9 counterexample input: sell 0.00004 AAPL for 0.5 USD (leaves 0.00001
of dust, inside the `(0, 1e-4]` window). -/
def c9x3 : Tx := ⟨3, "sell", some "AAPL", 1/25000, 1/2, 0, "", "USD", some 3, 3, 0, 0⟩

/-- C9 counterexample input: buy 1 AAPL for 2 USD. -/
def c9x4 : Tx := ⟨4, "buy", some "AAPL", 1, 2, 0, "", "USD", some 4, 4, 0, 0⟩

/-- C9 counterexample input: the deletable trailing USD deposit. -/
def c9x5 : Tx := ⟨5, "deposit", none, 0, 1, 0, "$x", "", some 5, 5, 0, 0⟩

/-- C9 witness input: a TRY deposit. -/
def c9wDep : Tx := ⟨1, "deposit", none, 0, 0, 100, "", "", some 1, 1, 0, 0⟩

/-- C9 witness input: the TRY withdrawal to be deleted. -/
def c9wWd : Tx := ⟨2, "withdraw", none, 0, 0, 30, "TRY", "", some 2, 2, 0, 0⟩

/-- CPI data for the composition witness. -/
def cpiW : List CpiEntry :=
  [⟨2022, 4, 100⟩, ⟨2023, 1, 102⟩, ⟨2023, 2, 104⟩, ⟨2023, 3, 106⟩]

/-- Witness dates in three distinct quarters of 2023. -/
def w0 : Date := ⟨2023, 2, 15⟩

def w1 : Date := ⟨2023, 5, 10⟩

def w2 : Date := ⟨2023, 8, 20⟩

/-- CPI data exhibiting the composition failure: the Q1-2023 index is four
times the Q4-2022 index. -/
def cexCpi : List CpiEntry := [⟨2022, 4, 100⟩, ⟨2023, 1, 400⟩]

/-- The midpoint of Q1 2023 (45 of the 90 days remain). -/
def cexD : Date := ⟨2023, 2, 15⟩

/-! ## Theorems -/

/-- C3 counterexample: with cutoff 5, the replay engine stops at the dated
transaction (effective 10) and never applies the undated deposit inserted at
3, so the replayed `cash_usd` is 0 while the claimed
"apply exactly the set with date ≤ cutoff" semantics yields 100. -/
theorem C3_counterexample :
    (replayStateAtDate [c3Dated, c3Undated] 5).cash_usd = 0 ∧
    c3Undated.effDate ≤ 5 ∧
    (replayFilterSem [c3Dated, c3Undated] 5).cash_usd = 100 := by
  refine ⟨?_, by decide, ?_⟩
  · simp +decide [replayStateAtDate, replayAux, replayStep, c3Dated, c3Undated,
      Tx.effDate, RState.init, cleanHoldings]
  · simp +decide [replayFilterSem, replayList, replayStep, c3Dated, c3Undated,
      Tx.effDate, RState.init]

/-- C3 (amended): `_replay_state_at_date` applies exactly the longest
prefix of its input whose effective (or insertion) dates are ≤ cutoff — a
`takeWhile`, not a filter: the walk breaks at the first later-dated
transaction, skipping everything after it. -/
theorem C3_amended (es : List Tx) (cutoff : ℤ) :
    replayStateAtDate es cutoff =
      (fun s => { s with holdings := cleanHoldings s.holdings })
        ((es.takeWhile (fun tx => tx.effDate ≤ cutoff)).foldl replayStep RState.init) := by
  have key : ∀ (l : List Tx) (s : RState),
      replayAux s l cutoff =
        (l.takeWhile (fun tx => tx.effDate ≤ cutoff)).foldl replayStep s := by
    intro l
    induction l with
    | nil => intro s; rfl
    | cons tx rest ih =>
      intro s
      by_cases h : cutoff < tx.effDate
      · have hp : (decide (tx.effDate ≤ cutoff)) = false := by
          simp [decide_eq_false_iff_not, not_le, h]
        simp [replayAux, if_pos h, List.takeWhile_cons, hp]
      · have hp : (decide (tx.effDate ≤ cutoff)) = true := by
          simp [not_lt.mp h]
        simp [replayAux, if_neg h, List.takeWhile_cons, hp, ih]
  simp [replayStateAtDate, key]

/-- C4 counterexample: two deposits identical except for the free-text note
move different cash balances during replay (the `$`-note lands in
`cash_usd`, the plain one in `cash_try`), so the trade-currency tag is not
the sole authority. -/
theorem C4_counterexample :
    c4NoteUsd = { c4NotePlain with note := "$" } ∧
    (replayList [c4NoteUsd]).cash_usd ≠ (replayList [c4NotePlain]).cash_usd ∧
    (replayList [c4NoteUsd]).cash_try ≠ (replayList [c4NotePlain]).cash_try := by
  refine ⟨rfl, ?_, ?_⟩ <;>
    · simp +decide [replayList, replayStep, c4NoteUsd, c4NotePlain, RState.init]
      try norm_num

/-- The `buy`/`sell` currency dispatch ignores the note whenever the
trade-currency tag is nonempty. -/
theorem tradeIsTry_note_irrel (tc : String) (sym : Option String) (n₁ n₂ : String)
    (h : tc ≠ "") : tradeIsTry tc sym n₁ = tradeIsTry tc sym n₂ := by
  simp [tradeIsTry, h]

/-- C4 (amended): only `buy` and `sell` transactions carrying a nonempty
trade-currency tag are note-independent — for those, all four engines
(replay, both validators, recomputation) give identical effects when only
the note changes; `deposit`, `withdraw`, `exchange` and interest
transactions dispatch on the note text. -/
theorem C4_amended (e : Tx) (n : String) (s r : RState) (v v₂ : VState)
    (hty : e.tx_type = "buy" ∨ e.tx_type = "sell")
    (htc : e.trade_currency ≠ "") :
    replayStep s { e with note := n } = replayStep s e ∧
    preStep v { e with note := n } = preStep v e ∧
    tlStep v₂ { e with note := n } = tlStep v₂ e ∧
    recalcStep r { e with note := n } = recalcStep r e := by
  have hkey : tradeIsTry e.trade_currency e.symbol n =
      tradeIsTry e.trade_currency e.symbol e.note :=
    tradeIsTry_note_irrel _ _ _ _ htc
  rcases hty with h | h <;>
    refine ⟨?_, ?_, ?_, ?_⟩ <;>
    simp [replayStep, preStep, tlStep, recalcStep, h, hkey]

/-- C4 witness: instantiating the amended theorem on a tagged buy. -/
theorem C4_witness :
    replayStep RState.init { c4Buy with note := "zzz" } = replayStep RState.init c4Buy := by
  exact (C4_amended c4Buy "zzz" RState.init RState.init VState.init VState.init
    (Or.inl rfl) (by decide)).1

/-- C5 counterexample: depositing 400 TRY at rate 40 leaves `cash_usd` at 0
(the TRY amount is credited to `cash_try`; only `total_deposited_usd`
records the 10 USD equivalent), contradicting the claimed
`cash_usd = 10.0000`. -/
theorem C5_counterexample :
    ((deposit PState.init 400 40).1).cash_usd ≠ 10 := by
  simp +decide [deposit, PState.init]

/-- C5 (amended): depositing 400 TRY at rate 40 yields `cash_try = 400`,
`cash_usd = 0`, `total_deposited_usd = 10`, `total_deposited_try = 400`;
a subsequent attempt to withdraw 5 USD (and likewise 10 USD) fails with the
plain string error `Insufficient USD cash balance` (no needed/available
amounts are reported) and leaves the portfolio state unchanged. -/
theorem C5_amended :
    ((deposit PState.init 400 40).1).cash_try = 400 ∧
    ((deposit PState.init 400 40).1).cash_usd = 0 ∧
    ((deposit PState.init 400 40).1).total_deposited_usd = 10 ∧
    ((deposit PState.init 400 40).1).total_deposited_try = 400 ∧
    withdraw (deposit PState.init 400 40).1 5 =
      ((deposit PState.init 400 40).1, some "Insufficient USD cash balance") ∧
    withdraw (deposit PState.init 400 40).1 10 =
      ((deposit PState.init 400 40).1, some "Insufficient USD cash balance") := by
  refine ⟨?_, ?_, ?_, ?_, ?_, ?_⟩ <;>
    · simp +decide [withdraw, deposit, PState.init, pyRound]
      try norm_num

/-- C6 counterexample: after buy 2@150, buy 1@180, sell 2@200 the USD cash
is 1000 − 300 − 180 + 400 = 920, not the claimed 1100. -/
theorem C6_counterexample :
    ((sellAssetUsd ((buyAssetUsd ((buyAssetUsd c6Start "AAPL" 2 150).1)
        "AAPL" 1 180).1) "AAPL" 2 200).1).cash_usd ≠ 1100 := by
  simp +decide [buyAssetUsd, sellAssetUsd, c6Start, PState.init, pyRound]
  try norm_num

/-- C6 (amended): buy 2 AAPL at 150 → `cash_usd = 700`, holding
`(2, 150)`; buy 1 at 180 → holding `(3, 160)`, `cash_usd = 520`; sell 2 at
200 → realized P&L 80, holding `(1, 160)`, `cash_usd = 920`, no error. -/
theorem C6_amended :
    ((buyAssetUsd c6Start "AAPL" 2 150).1).cash_usd = 700 ∧
    ((buyAssetUsd c6Start "AAPL" 2 150).1).holdings (some "AAPL") = some (2, 150) ∧
    ((buyAssetUsd ((buyAssetUsd c6Start "AAPL" 2 150).1) "AAPL" 1 180).1).holdings
      (some "AAPL") = some (3, 160) ∧
    ((buyAssetUsd ((buyAssetUsd c6Start "AAPL" 2 150).1) "AAPL" 1 180).1).cash_usd = 520 ∧
    (sellAssetUsd ((buyAssetUsd ((buyAssetUsd c6Start "AAPL" 2 150).1) "AAPL" 1 180).1)
      "AAPL" 2 200).2.2 = 80 ∧
    ((sellAssetUsd ((buyAssetUsd ((buyAssetUsd c6Start "AAPL" 2 150).1) "AAPL" 1 180).1)
      "AAPL" 2 200).1).holdings (some "AAPL") = some (1, 160) ∧
    ((sellAssetUsd ((buyAssetUsd ((buyAssetUsd c6Start "AAPL" 2 150).1) "AAPL" 1 180).1)
      "AAPL" 2 200).1).cash_usd = 920 ∧
    (sellAssetUsd ((buyAssetUsd ((buyAssetUsd c6Start "AAPL" 2 150).1) "AAPL" 1 180).1)
      "AAPL" 2 200).2.1 = none := by
  refine ⟨?_, ?_, ?_, ?_, ?_, ?_, ?_, ?_⟩ <;>
    · simp +decide [buyAssetUsd, sellAssetUsd, c6Start, PState.init, pyRound]
      try norm_num

/-! ### Validator / replay correspondence (C1, C2) -/

/-- The quantity read through `getD` is the `qtyOf` of the state. -/
theorem getD_qty (r : RState) (k : Option String) :
    ((r.holdings k).getD ⟨0, 0⟩).qty = r.qtyOf k := by
  cases h : r.holdings k <;> simp [RState.qtyOf, h]

/-- Every holding quantity of a nonnegative state is nonnegative. -/
theorem qtyOf_nonneg {r : RState}
    (nh : ∀ k rec, r.holdings k = some rec → 0 ≤ rec.qty) (k : Option String) :
    0 ≤ r.qtyOf k := by
  cases h : r.holdings k with
  | none => simp [RState.qtyOf, h]
  | some rec => simpa [RState.qtyOf, h] using nh k rec h

/-- Pointwise agreement of validator and replay holdings after a one-symbol
update. -/
theorem qty_update_eq {v : VState} {r : RState} (hh : ∀ k, v.holdings k = r.qtyOf k)
    (sym : Option String) (rec0 : HRec) (a : ℚ) (h0 : rec0.qty = a) (k : Option String) :
    (if k = sym then a else v.holdings k) =
      (match (if k = sym then some rec0 else r.holdings k) with
        | none => 0
        | some rec => rec.qty) := by
  by_cases hks : k = sym
  · simp [hks, h0]
  · simpa [hks] using hh k

/-- Nonnegativity of holdings after a one-symbol update. -/
theorem hold_nonneg_update {r : RState}
    (nh : ∀ k rec, r.holdings k = some rec → 0 ≤ rec.qty)
    (sym : Option String) (rec0 : HRec) (h0 : 0 ≤ rec0.qty) :
    ∀ k rec, (if k = sym then some rec0 else r.holdings k) = some rec → 0 ≤ rec.qty := by
  intro k rec hk
  by_cases hks : k = sym
  · rw [if_pos hks] at hk
    cases hk
    exact h0
  · rw [if_neg hks] at hk
    exact nh k rec hk

/-- One accepted `pre_validate_new_transaction` step is also accepted by the
zero-tolerance `validate_transaction_timeline` step with the same resulting
balances, and mirrors the replay-engine effect while preserving
nonnegativity. -/
theorem master_step {v v' : VState} {r : RState} {e : Tx}
    (hrel : Rel v r) (hnn : NonnegR r) (hE : TxNonneg e)
    (hstep : preStep v e = some v') :
    tlStep v e = some v' ∧ Rel v' (replayStep r e) ∧ NonnegR (replayStep r e) := by
  obtain ⟨hct, hcu, hit, hiu, hh⟩ := hrel
  obtain ⟨nct, ncu, nit, niu, nh⟩ := hnn
  obtain ⟨hq, hu, ht⟩ := hE
  by_cases h1 : e.tx_type = "deposit"
  · by_cases hn : strIn "$" e.note = true
    · simp only [preStep, h1, hn, reduceIte, String.reduceEq, if_true, Option.some.injEq] at hstep
      subst hstep
      refine ⟨by simp [tlStep, h1, hn], ⟨?_, ?_, ?_, ?_, ?_⟩, ⟨?_, ?_, ?_, ?_, ?_⟩⟩ <;>
        simp only [replayStep, h1, hn, reduceIte, String.reduceEq] <;>
        first
          | exact hct | exact hcu | exact hit | exact hiu | exact hh | exact nh
          | (simp only [hct, hcu, hit, hiu])
          | linarith
    · simp only [preStep, h1, hn, reduceIte, String.reduceEq, Bool.false_eq_true, if_false,
        Option.some.injEq] at hstep
      subst hstep
      refine ⟨by simp [tlStep, h1, hn], ⟨?_, ?_, ?_, ?_, ?_⟩, ⟨?_, ?_, ?_, ?_, ?_⟩⟩ <;>
        simp only [replayStep, h1, hn, reduceIte, String.reduceEq, Bool.false_eq_true, if_false] <;>
        first
          | exact hct | exact hcu | exact hit | exact hiu | exact hh | exact nh
          | (simp only [hct, hcu, hit, hiu])
          | linarith
  · by_cases h2 : e.tx_type = "withdraw"
    · by_cases hn : strIn "TRY" e.note = true
      · simp only [preStep, h1, h2, hn, reduceIte, String.reduceEq] at hstep
        split_ifs at hstep with hg
        · simp only [Option.some.injEq] at hstep
          subst hstep
          have hg' : e.amount_try ≤ v.cash_try - 1/100 := by
            have hg0 := not_lt.mp hg
            simp only [preTOL] at hg0
            linarith
          have hcond : ¬(0 < e.amount_try ∧ v.cash_try < e.amount_try) := by
            rintro ⟨-, hlt⟩; linarith
          refine ⟨by simp only [tlStep, h1, h2, hn, reduceIte, String.reduceEq, if_neg hcond],
                  ⟨?_, ?_, ?_, ?_, ?_⟩, ⟨?_, ?_, ?_, ?_, ?_⟩⟩ <;>
            simp only [replayStep, h1, h2, hn, reduceIte, String.reduceEq] <;>
            first
              | exact hct | exact hcu | exact hit | exact hiu | exact hh | exact nh
              | exact nct | exact ncu | exact nit | exact niu
              | (simp only [hct, hcu, hit, hiu]) | linarith
      · simp only [preStep, h1, h2, hn, reduceIte, String.reduceEq, Bool.false_eq_true, if_false] at hstep
        split_ifs at hstep with hg
        · simp only [Option.some.injEq] at hstep
          subst hstep
          have hg' : e.amount_usd ≤ v.cash_usd - 1/100 := by
            have hg0 := not_lt.mp hg
            simp only [preTOL] at hg0
            linarith
          have hcond : ¬(0 < e.amount_usd ∧ v.cash_usd < e.amount_usd) := by
            rintro ⟨-, hlt⟩; linarith
          refine ⟨by simp only [tlStep, h1, h2, hn, reduceIte, String.reduceEq, Bool.false_eq_true,
                    if_false, if_neg hcond],
                  ⟨?_, ?_, ?_, ?_, ?_⟩, ⟨?_, ?_, ?_, ?_, ?_⟩⟩ <;>
            simp only [replayStep, h1, h2, hn, reduceIte, String.reduceEq, Bool.false_eq_true, if_false] <;>
            first
              | exact hct | exact hcu | exact hit | exact hiu | exact hh | exact nh
              | exact nct | exact ncu | exact nit | exact niu
              | (simp only [hct, hcu, hit, hiu]) | linarith
    · by_cases h3 : e.tx_type = "buy"
      · by_cases htc : tradeIsTry e.trade_currency e.symbol e.note = true
        · simp only [preStep, h1, h2, h3, htc, reduceIte, String.reduceEq] at hstep
          split_ifs at hstep with hg
          · simp only [Option.some.injEq] at hstep
            subst hstep
            have hg' : e.amount_try ≤ v.cash_try - 1/100 := by
              have hg0 := not_lt.mp hg
              simp only [preTOL] at hg0
              linarith
            have hcond : ¬(v.cash_try < e.amount_try) := by linarith
            refine ⟨by simp only [tlStep, h1, h2, h3, htc, reduceIte, String.reduceEq, if_neg hcond],
                    ⟨?_, ?_, ?_, ?_, ?_⟩, ⟨?_, ?_, ?_, ?_, ?_⟩⟩
            · simp only [replayStep, h1, h2, h3, htc, reduceIte, String.reduceEq, hct]
            · simp only [replayStep, h1, h2, h3, htc, reduceIte, String.reduceEq]; exact hcu
            · simp only [replayStep, h1, h2, h3, htc, reduceIte, String.reduceEq]; exact hit
            · simp only [replayStep, h1, h2, h3, htc, reduceIte, String.reduceEq]; exact hiu
            · intro k
              simp only [replayStep, h1, h2, h3, htc, reduceIte, String.reduceEq, RState.qtyOf]
              exact qty_update_eq hh e.symbol _ _ (by simp [getD_qty, hh]) k
            · simp only [replayStep, h1, h2, h3, htc, reduceIte, String.reduceEq]; linarith
            · simp only [replayStep, h1, h2, h3, htc, reduceIte, String.reduceEq]; exact ncu
            · simp only [replayStep, h1, h2, h3, htc, reduceIte, String.reduceEq]; exact nit
            · simp only [replayStep, h1, h2, h3, htc, reduceIte, String.reduceEq]; exact niu
            · intro k rec hk
              simp only [replayStep, h1, h2, h3, htc, reduceIte, String.reduceEq] at hk
              refine hold_nonneg_update nh e.symbol _ ?_ k rec hk
              have hnn0 : (0:ℚ) ≤ ((r.holdings e.symbol).getD ⟨0, 0⟩).qty := by
                rw [getD_qty]
                exact qtyOf_nonneg nh e.symbol
              exact add_nonneg hnn0 hq
        · simp only [preStep, h1, h2, h3, htc, reduceIte, String.reduceEq, Bool.false_eq_true,
            if_false] at hstep
          split_ifs at hstep with hg
          · simp only [Option.some.injEq] at hstep
            subst hstep
            have hg' : e.amount_usd ≤ v.cash_usd - 1/100 := by
              have hg0 := not_lt.mp hg
              simp only [preTOL] at hg0
              linarith
            have hcond : ¬(v.cash_usd < e.amount_usd) := by linarith
            refine ⟨by simp only [tlStep, h1, h2, h3, htc, reduceIte, String.reduceEq, Bool.false_eq_true,
                      if_false, if_neg hcond],
                    ⟨?_, ?_, ?_, ?_, ?_⟩, ⟨?_, ?_, ?_, ?_, ?_⟩⟩
            · simp only [replayStep, h1, h2, h3, htc, reduceIte, String.reduceEq, Bool.false_eq_true,
                if_false]; exact hct
            · simp only [replayStep, h1, h2, h3, htc, reduceIte, String.reduceEq, Bool.false_eq_true,
                if_false, hcu]
            · simp only [replayStep, h1, h2, h3, htc, reduceIte, String.reduceEq, Bool.false_eq_true,
                if_false]; exact hit
            · simp only [replayStep, h1, h2, h3, htc, reduceIte, String.reduceEq, Bool.false_eq_true,
                if_false]; exact hiu
            · intro k
              simp only [replayStep, h1, h2, h3, htc, reduceIte, String.reduceEq, Bool.false_eq_true,
                if_false, RState.qtyOf]
              exact qty_update_eq hh e.symbol _ _ (by simp [getD_qty, hh]) k
            · simp only [replayStep, h1, h2, h3, htc, reduceIte, String.reduceEq, Bool.false_eq_true,
                if_false]; exact nct
            · simp only [replayStep, h1, h2, h3, htc, reduceIte, String.reduceEq, Bool.false_eq_true,
                if_false]; linarith
            · simp only [replayStep, h1, h2, h3, htc, reduceIte, String.reduceEq, Bool.false_eq_true,
                if_false]; exact nit
            · simp only [replayStep, h1, h2, h3, htc, reduceIte, String.reduceEq, Bool.false_eq_true,
                if_false]; exact niu
            · intro k rec hk
              simp only [replayStep, h1, h2, h3, htc, reduceIte, String.reduceEq, Bool.false_eq_true,
                if_false] at hk
              refine hold_nonneg_update nh e.symbol _ ?_ k rec hk
              have hnn0 : (0:ℚ) ≤ ((r.holdings e.symbol).getD ⟨0, 0⟩).qty := by
                rw [getD_qty]
                exact qtyOf_nonneg nh e.symbol
              exact add_nonneg hnn0 hq
      · by_cases h4 : e.tx_type = "sell"
        · simp only [preStep, h1, h2, h3, h4, reduceIte, String.reduceEq] at hstep
          split_ifs at hstep with hg htc
          all_goals
            simp only [Option.some.injEq] at hstep
            subst hstep
            have hg' : e.quantity ≤ v.holdings e.symbol - 1/100 := by
              have hg0 := not_lt.mp hg
              simp only [preTOL] at hg0
              linarith
            have hcond : ¬(v.holdings e.symbol < e.quantity) := by linarith
            have hex : ∃ old, r.holdings e.symbol = some old := by
              cases hr0 : r.holdings e.symbol with
              | none =>
                exfalso
                have h0 := hh e.symbol
                simp [RState.qtyOf, hr0] at h0
                linarith
              | some old => exact ⟨old, rfl⟩
            obtain ⟨old, hr⟩ := hex
            have hqe : v.holdings e.symbol = old.qty := by
              have h0 := hh e.symbol
              simpa [RState.qtyOf, hr] using h0
            have hclamp : ¬(old.qty - e.quantity ≤ 1/10000) := by linarith
          · refine ⟨by simp only [tlStep, h1, h2, h3, h4, htc, reduceIte, String.reduceEq, if_neg hcond],
                    ⟨?_, ?_, ?_, ?_, ?_⟩, ⟨?_, ?_, ?_, ?_, ?_⟩⟩
            · simp only [replayStep, h1, h2, h3, h4, htc, reduceIte, String.reduceEq, hr, hct]
            · simp only [replayStep, h1, h2, h3, h4, htc, reduceIte, String.reduceEq, hr]; exact hcu
            · simp only [replayStep, h1, h2, h3, h4, htc, reduceIte, String.reduceEq, hr]; exact hit
            · simp only [replayStep, h1, h2, h3, h4, htc, reduceIte, String.reduceEq, hr]; exact hiu
            · intro k
              simp only [replayStep, h1, h2, h3, h4, htc, reduceIte, String.reduceEq, hr,
                if_neg hclamp, RState.qtyOf]
              exact qty_update_eq hh e.symbol _ _ (by simp [hqe]) k
            · simp only [replayStep, h1, h2, h3, h4, htc, reduceIte, String.reduceEq, hr]; linarith
            · simp only [replayStep, h1, h2, h3, h4, htc, reduceIte, String.reduceEq, hr]; exact ncu
            · simp only [replayStep, h1, h2, h3, h4, htc, reduceIte, String.reduceEq, hr]; exact nit
            · simp only [replayStep, h1, h2, h3, h4, htc, reduceIte, String.reduceEq, hr]; exact niu
            · intro k rec hk
              simp only [replayStep, h1, h2, h3, h4, htc, reduceIte, String.reduceEq, hr,
                if_neg hclamp] at hk
              refine hold_nonneg_update nh e.symbol _ ?_ k rec hk
              show (0:ℚ) ≤ old.qty - e.quantity
              linarith
          · refine ⟨by simp only [tlStep, h1, h2, h3, h4, htc, reduceIte, String.reduceEq,
                      Bool.false_eq_true, if_false, if_neg hcond],
                    ⟨?_, ?_, ?_, ?_, ?_⟩, ⟨?_, ?_, ?_, ?_, ?_⟩⟩
            · simp only [replayStep, h1, h2, h3, h4, htc, reduceIte, String.reduceEq,
                Bool.false_eq_true, if_false, hr]; exact hct
            · simp only [replayStep, h1, h2, h3, h4, htc, reduceIte, String.reduceEq,
                Bool.false_eq_true, if_false, hr, hcu]
            · simp only [replayStep, h1, h2, h3, h4, htc, reduceIte, String.reduceEq,
                Bool.false_eq_true, if_false, hr]; exact hit
            · simp only [replayStep, h1, h2, h3, h4, htc, reduceIte, String.reduceEq,
                Bool.false_eq_true, if_false, hr]; exact hiu
            · intro k
              simp only [replayStep, h1, h2, h3, h4, htc, reduceIte, String.reduceEq,
                Bool.false_eq_true, if_false, hr, if_neg hclamp, RState.qtyOf]
              exact qty_update_eq hh e.symbol _ _ (by simp [hqe]) k
            · simp only [replayStep, h1, h2, h3, h4, htc, reduceIte, String.reduceEq,
                Bool.false_eq_true, if_false, hr]; exact nct
            · simp only [replayStep, h1, h2, h3, h4, htc, reduceIte, String.reduceEq,
                Bool.false_eq_true, if_false, hr]; linarith
            · simp only [replayStep, h1, h2, h3, h4, htc, reduceIte, String.reduceEq,
                Bool.false_eq_true, if_false, hr]; exact nit
            · simp only [replayStep, h1, h2, h3, h4, htc, reduceIte, String.reduceEq,
                Bool.false_eq_true, if_false, hr]; exact niu
            · intro k rec hk
              simp only [replayStep, h1, h2, h3, h4, htc, reduceIte, String.reduceEq,
                Bool.false_eq_true, if_false, hr, if_neg hclamp] at hk
              refine hold_nonneg_update nh e.symbol _ ?_ k rec hk
              show (0:ℚ) ≤ old.qty - e.quantity
              linarith
        · by_cases h5 : e.tx_type = "interest_in"
          · by_cases hn : strIn "TRY" e.note = true
            · simp only [preStep, h1, h2, h3, h4, h5, hn, reduceIte, String.reduceEq] at hstep
              split_ifs at hstep with hg
              · simp only [Option.some.injEq] at hstep
                subst hstep
                have hg' : e.amount_try ≤ v.cash_try - 1/100 := by
                  have hg0 := not_lt.mp hg
                  simp only [preTOL] at hg0
                  linarith
                have hcond : ¬(v.cash_try < e.amount_try) := by linarith
                refine ⟨by simp only [tlStep, h1, h2, h3, h4, h5, hn, reduceIte, String.reduceEq,
                          if_neg hcond],
                        ⟨?_, ?_, ?_, ?_, ?_⟩, ⟨?_, ?_, ?_, ?_, ?_⟩⟩ <;>
                  simp only [replayStep, h1, h2, h3, h4, h5, hn, reduceIte, String.reduceEq] <;>
                  first
                    | exact hct | exact hcu | exact hit | exact hiu | exact hh | exact nh
                    | exact nct | exact ncu | exact nit | exact niu
                    | (simp only [hct, hcu, hit, hiu]) | linarith
            · simp only [preStep, h1, h2, h3, h4, h5, hn, reduceIte, String.reduceEq, Bool.false_eq_true,
                if_false] at hstep
              split_ifs at hstep with hg
              · simp only [Option.some.injEq] at hstep
                subst hstep
                have hg' : e.amount_usd ≤ v.cash_usd - 1/100 := by
                  have hg0 := not_lt.mp hg
                  simp only [preTOL] at hg0
                  linarith
                have hcond : ¬(v.cash_usd < e.amount_usd) := by linarith
                refine ⟨by simp only [tlStep, h1, h2, h3, h4, h5, hn, reduceIte, String.reduceEq,
                          Bool.false_eq_true, if_false, if_neg hcond],
                        ⟨?_, ?_, ?_, ?_, ?_⟩, ⟨?_, ?_, ?_, ?_, ?_⟩⟩ <;>
                  simp only [replayStep, h1, h2, h3, h4, h5, hn, reduceIte, String.reduceEq,
                    Bool.false_eq_true, if_false] <;>
                  first
                    | exact hct | exact hcu | exact hit | exact hiu | exact hh | exact nh
                    | exact nct | exact ncu | exact nit | exact niu
                    | (simp only [hct, hcu, hit, hiu]) | linarith
          · by_cases h6 : e.tx_type = "interest_out"
            · by_cases hn : strIn "TRY" e.note = true
              · simp only [preStep, h1, h2, h3, h4, h5, h6, hn, reduceIte, String.reduceEq] at hstep
                split_ifs at hstep with hg
                · simp only [Option.some.injEq] at hstep
                  subst hstep
                  have hg' : e.amount_try - e.interest_earned_try ≤
                      v.interest_try - 1/100 := by
                    have hg0 := not_lt.mp hg
                    simp only [preTOL] at hg0
                    linarith
                  have hcond : ¬(v.interest_try <
                      e.amount_try - e.interest_earned_try) := by linarith
                  refine ⟨by simp only [tlStep, h1, h2, h3, h4, h5, h6, hn, reduceIte, String.reduceEq,
                            if_neg hcond],
                          ⟨?_, ?_, ?_, ?_, ?_⟩, ⟨?_, ?_, ?_, ?_, ?_⟩⟩ <;>
                    simp only [replayStep, h1, h2, h3, h4, h5, h6, hn, reduceIte, String.reduceEq] <;>
                    first
                      | exact hct | exact hcu | exact hit | exact hiu
                      | exact hh | exact nh
                      | exact nct | exact ncu | exact nit | exact niu
                      | (simp only [hct, hcu, hit, hiu]) | linarith
              · simp only [preStep, h1, h2, h3, h4, h5, h6, hn, reduceIte, String.reduceEq,
                  Bool.false_eq_true, if_false] at hstep
                split_ifs at hstep with hg
                · simp only [Option.some.injEq] at hstep
                  subst hstep
                  have hg' : e.amount_usd - e.interest_earned_usd ≤
                      v.interest_usd - 1/100 := by
                    have hg0 := not_lt.mp hg
                    simp only [preTOL] at hg0
                    linarith
                  have hcond : ¬(v.interest_usd <
                      e.amount_usd - e.interest_earned_usd) := by linarith
                  refine ⟨by simp only [tlStep, h1, h2, h3, h4, h5, h6, hn, reduceIte, String.reduceEq,
                            Bool.false_eq_true, if_false, if_neg hcond],
                          ⟨?_, ?_, ?_, ?_, ?_⟩, ⟨?_, ?_, ?_, ?_, ?_⟩⟩ <;>
                    simp only [replayStep, h1, h2, h3, h4, h5, h6, hn, reduceIte, String.reduceEq,
                      Bool.false_eq_true, if_false] <;>
                    first
                      | exact hct | exact hcu | exact hit | exact hiu
                      | exact hh | exact nh
                      | exact nct | exact ncu | exact nit | exact niu
                      | (simp only [hct, hcu, hit, hiu]) | linarith
            · by_cases h7 : e.tx_type = "exchange"
              · by_cases hn : (strIn "Bought" e.note || strIn "buy" (strLower e.note))
                    = true
                · simp only [preStep, h1, h2, h3, h4, h5, h6, h7, hn, reduceIte, String.reduceEq] at hstep
                  split_ifs at hstep with hg
                  · simp only [Option.some.injEq] at hstep
                    subst hstep
                    have hg' : e.amount_try ≤ v.cash_try - 1/100 := by
                      have hg0 := not_lt.mp hg
                      simp only [preTOL] at hg0
                      linarith
                    have hcond : ¬(v.cash_try < e.amount_try) := by linarith
                    refine ⟨by simp only [tlStep, h1, h2, h3, h4, h5, h6, h7, hn,
                              reduceIte, String.reduceEq, if_neg hcond],
                            ⟨?_, ?_, ?_, ?_, ?_⟩, ⟨?_, ?_, ?_, ?_, ?_⟩⟩ <;>
                      simp only [replayStep, h1, h2, h3, h4, h5, h6, h7, hn,
                        reduceIte, String.reduceEq] <;>
                      first
                        | exact hct | exact hcu | exact hit | exact hiu
                        | exact hh | exact nh
                        | exact nct | exact ncu | exact nit | exact niu
                        | (simp only [hct, hcu, hit, hiu]) | linarith
                · simp only [preStep, h1, h2, h3, h4, h5, h6, h7, hn, reduceIte, String.reduceEq,
                    Bool.false_eq_true, if_false] at hstep
                  split_ifs at hstep with hg
                  · simp only [Option.some.injEq] at hstep
                    subst hstep
                    have hg' : e.amount_usd ≤ v.cash_usd - 1/100 := by
                      have hg0 := not_lt.mp hg
                      simp only [preTOL] at hg0
                      linarith
                    have hcond : ¬(v.cash_usd < e.amount_usd) := by linarith
                    refine ⟨by simp only [tlStep, h1, h2, h3, h4, h5, h6, h7, hn,
                              reduceIte, String.reduceEq, Bool.false_eq_true, if_false, if_neg hcond],
                            ⟨?_, ?_, ?_, ?_, ?_⟩, ⟨?_, ?_, ?_, ?_, ?_⟩⟩ <;>
                      simp only [replayStep, h1, h2, h3, h4, h5, h6, h7, hn, reduceIte, String.reduceEq,
                        Bool.false_eq_true, if_false] <;>
                      first
                        | exact hct | exact hcu | exact hit | exact hiu
                        | exact hh | exact nh
                        | exact nct | exact ncu | exact nit | exact niu
                        | (simp only [hct, hcu, hit, hiu]) | linarith
              · simp only [preStep, h1, h2, h3, h4, h5, h6, h7, reduceIte, String.reduceEq,
                  Option.some.injEq] at hstep
                subst hstep
                refine ⟨by simp [tlStep, h1, h2, h3, h4, h5, h6, h7], ?_, ?_⟩
                · simp only [replayStep, h1, h2, h3, h4, h5, h6, h7, reduceIte, String.reduceEq]
                  exact ⟨hct, hcu, hit, hiu, hh⟩
                · simp only [replayStep, h1, h2, h3, h4, h5, h6, h7, reduceIte, String.reduceEq]
                  exact ⟨nct, ncu, nit, niu, nh⟩

/-- `preRun` splits over list append. -/
theorem preRun_append (v : VState) (p q : List Tx) :
    preRun v (p ++ q) = match preRun v p with
      | none => none
      | some w => preRun w q := by
  induction p generalizing v with
  | nil => rfl
  | cons e es ih =>
    simp only [List.cons_append, preRun]
    cases preStep v e with
    | none => rfl
    | some w => exact ih w

/-- The two initial validator/replay states agree. -/
theorem relInit : Rel VState.init RState.init := by
  refine ⟨rfl, rfl, rfl, rfl, ?_⟩
  intro k
  rfl

/-- The initial replay state is nonnegative. -/
theorem nonnegInit : NonnegR RState.init := by
  refine ⟨le_refl 0, le_refl 0, le_refl 0, le_refl 0, ?_⟩
  intro k rec hk
  exact absurd hk (by simp [RState.init])

/-- Accepted `pre_validate` runs are accepted by the timeline validator with
identical final balances, track the replay-engine state, and keep every
replayed prefix nonnegative. -/
theorem master_run (es : List Tx) :
    (∀ e ∈ es, TxNonneg e) → ∀ v r v', Rel v r → NonnegR r → preRun v es = some v' →
      tlRun v es = some v' ∧ Rel v' (es.foldl replayStep r) ∧
      ∀ p, p <+: es → NonnegR (p.foldl replayStep r) := by
  induction es with
  | nil =>
    intro _ v r v' hrel hnn hrun
    simp only [preRun, Option.some.injEq] at hrun
    subst hrun
    refine ⟨rfl, hrel, ?_⟩
    intro p hp
    rw [List.prefix_nil.mp hp]
    exact hnn
  | cons e rest ih =>
    intro hE v r v' hrel hnn hrun
    have hEe : TxNonneg e := hE e (List.mem_cons_self _ _)
    have hErest : ∀ x ∈ rest, TxNonneg x := fun x hx => hE x (List.mem_cons_of_mem _ hx)
    simp only [preRun] at hrun
    cases hstep : preStep v e with
    | none =>
      rw [hstep] at hrun
      exact absurd hrun (by simp)
    | some v₁ =>
      rw [hstep] at hrun
      obtain ⟨htl, hrel₁, hnn₁⟩ := master_step hrel hnn hEe hstep
      obtain ⟨htlrun, hrelfin, hpref⟩ :=
        ih hErest v₁ (replayStep r e) v' hrel₁ hnn₁ hrun
      refine ⟨?_, ?_, ?_⟩
      · simp only [tlRun, htl]
        exact htlrun
      · simpa [List.foldl_cons] using hrelfin
      · intro p hp
        cases p with
        | nil => simpa using hnn
        | cons x xs =>
          obtain ⟨hxe, hxs⟩ := List.cons_prefix_cons.mp hp
          subst hxe
          simpa [List.foldl_cons] using hpref xs hxs

/-- C1: every transaction history (with nonnegative amounts and quantities)
accepted by `pre_validate_new_transaction` replays with `cash_try`,
`cash_usd`, `interest_try`, `interest_usd` and every holding quantity
nonnegative at every prefix of the canonical order — in fact exactly `≥ 0`,
which is stronger than the claimed `≥ -tolerance`. -/
theorem C1_nonneg_invariant (es : List Tx) (hE : ∀ e ∈ es, TxNonneg e)
    (hacc : preValidateEntries es = true) :
    ∀ p, p <+: es → NonnegR (replayList p) := by
  unfold preValidateEntries at hacc
  obtain ⟨v', hv'⟩ := Option.isSome_iff_exists.mp hacc
  obtain ⟨-, -, hpref⟩ :=
    master_run es hE VState.init RState.init v' relInit nonnegInit hv'
  intro p hp
  simpa [replayList] using hpref p hp

/-- C1 witness: the two-transaction history is accepted and its replayed
TRY balance is nonnegative. -/
theorem C1_witness :
    preValidateEntries [c1wDep, c1wWd] = true ∧
    0 ≤ (replayList [c1wDep, c1wWd]).cash_try := by
  have hacc : preValidateEntries [c1wDep, c1wWd] = true := by
    simp +decide [preValidateEntries, preRun, preStep, c1wDep, c1wWd,
      VState.init, preTOL]
    norm_num
  refine ⟨hacc, ?_⟩
  exact (C1_nonneg_invariant [c1wDep, c1wWd]
    (by intro e he; fin_cases he <;> exact ⟨by decide, by decide, by decide⟩)
    hacc [c1wDep, c1wWd] (List.prefix_refl _)).1

/-- C2 counterexample: withdrawing exactly the full balance replays to 0
(well above every negative tolerance at every prefix), yet
`pre_validate_new_transaction` rejects it while
`validate_transaction_timeline` accepts it — the two validators use
different tolerances and neither acceptance matches "replay stays above
−tolerance". -/
theorem C2_counterexample :
    preValidateEntries [c2Dep, c2Wd] = false ∧
    tlValidateEntries [c2Dep, c2Wd] = true ∧
    (replayList [c2Dep]).cash_try = 100 ∧
    (replayList [c2Dep, c2Wd]).cash_try = 0 := by
  refine ⟨?_, ?_, ?_, ?_⟩
  · simp +decide [preValidateEntries, preRun, preStep, c2Dep, c2Wd,
      VState.init, preTOL]
  · simp +decide [tlValidateEntries, tlRun, tlStep, c2Dep, c2Wd, VState.init]
  · simp +decide [replayList, replayStep, c2Dep, RState.init]
  · simp +decide [replayList, replayStep, c2Dep, c2Wd, RState.init]

/-- C2 (amended): the per-kind balance effects of the two validators and the
replay engine coincide — on every prefix of a history accepted by
`pre_validate_new_transaction`, `validate_transaction_timeline` is also
accepted, both validators compute identical running balances, and those
balances equal the replayed state; the tolerances however differ
(`pre_validate` demands a 0.01 margin on every subtraction, for holding
quantities as well, while `validate_transaction_timeline` uses zero
tolerance), so acceptance is not equivalent to "replay stays above
−tolerance". -/
theorem C2_amended (es : List Tx) (hE : ∀ e ∈ es, TxNonneg e)
    (hacc : preValidateEntries es = true) :
    ∀ p, p <+: es → ∃ vp, preRun VState.init p = some vp ∧
      tlRun VState.init p = some vp ∧ Rel vp (replayList p) := by
  intro p hp
  obtain ⟨q, rfl⟩ := hp
  unfold preValidateEntries at hacc
  obtain ⟨v', hv'⟩ := Option.isSome_iff_exists.mp hacc
  rw [preRun_append] at hv'
  cases hvp : preRun VState.init p with
  | none =>
    rw [hvp] at hv'
    exact absurd hv' (by simp)
  | some vp =>
    have hEp : ∀ e ∈ p, TxNonneg e := fun e he => hE e (List.mem_append_left _ he)
    obtain ⟨htl, hrel, -⟩ :=
      master_run p hEp VState.init RState.init vp relInit nonnegInit hvp
    exact ⟨vp, rfl, htl, by simpa [replayList] using hrel⟩

/-- C2 witness: on an accepted concrete history, the timeline validator
also accepts and its final USD balance equals the replayed one. -/
theorem C2_witness :
    (tlRun VState.init [c2wDep, c2wWd]).map (fun w => w.cash_usd) =
      some ((replayList [c2wDep, c2wWd]).cash_usd) := by
  have hacc : preValidateEntries [c2wDep, c2wWd] = true := by
    simp +decide [preValidateEntries, preRun, preStep, c2wDep, c2wWd,
      VState.init, preTOL]
    norm_num
  obtain ⟨vp, -, htl, hrel⟩ := C2_amended [c2wDep, c2wWd]
    (by intro e he; fin_cases he <;> exact ⟨by decide, by decide, by decide⟩)
    hacc [c2wDep, c2wWd] (List.prefix_refl _)
  rw [htl]
  simp only [Option.map_some']
  exact congrArg some hrel.2.1

/-- If no deposit/withdraw falls strictly inside `(s, e]`, the collected
external flows are empty. -/
theorem externalFlows_nil (txs : List Tx) (s e : ℤ)
    (h : ∀ tx ∈ txs, (tx.tx_type = "deposit" ∨ tx.tx_type = "withdraw") →
      ¬(s < tx.effDate ∧ tx.effDate ≤ e)) :
    externalFlows txs s e = [] := by
  induction txs with
  | nil => rfl
  | cons tx rest ih =>
    have hrest : externalFlows rest s e = [] :=
      ih fun x hx => h x (List.mem_cons_of_mem _ hx)
    by_cases hd : tx.effDate ≤ s ∨ e < tx.effDate
    · simp only [externalFlows, if_pos hd]
      exact hrest
    · push_neg at hd
      by_cases h1 : tx.tx_type = "deposit"
      · exact absurd ⟨hd.1, hd.2⟩ (h tx (List.mem_cons_self _ _) (Or.inl h1))
      · by_cases h2 : tx.tx_type = "withdraw"
        · exact absurd ⟨hd.1, hd.2⟩ (h tx (List.mem_cons_self _ _) (Or.inr h2))
        · simp only [externalFlows,
            if_neg (not_or.mpr ⟨not_le.mpr hd.1, not_lt.mpr hd.2⟩), h1, h2,
            if_false, reduceIte]
          simpa [h1, h2] using hrest

/-- C7: in full-portfolio mode, when no deposit or withdraw transaction has
an effective date strictly inside `(start, end]`, the reported P&L is the
plain value change and the return percentage is
`(EndValue − StartValue) / StartValue` (×100, rounded to 2 decimals as the
service reports it), in both the TRY and the USD series. -/
theorem C7_dietz_noflow (txs : List Tx) (startD endD : ℤ)
    (startTry endTry startUsd endUsd : ℚ)
    (h : ∀ tx ∈ txs, (tx.tx_type = "deposit" ∨ tx.tx_type = "withdraw") →
      ¬(startD < tx.effDate ∧ tx.effDate ≤ endD))
    (hbT : 1/100 < |startTry|) (hbU : 1/10000 < |startUsd|) :
    (periodPnlFull txs startD endD startTry endTry startUsd endUsd).pnl_try
        = endTry - startTry ∧
    (periodPnlFull txs startD endD startTry endTry startUsd endUsd).pnl_usd
        = endUsd - startUsd ∧
    (periodPnlFull txs startD endD startTry endTry startUsd endUsd).pct_try
        = pyRound 2 ((endTry - startTry) / startTry * 100) ∧
    (periodPnlFull txs startD endD startTry endTry startUsd endUsd).pct_usd
        = pyRound 2 ((endUsd - startUsd) / startUsd * 100) := by
  have hf : externalFlows txs startD endD = [] := externalFlows_nil txs startD endD h
  refine ⟨?_, ?_, ?_, ?_⟩ <;>
    simp [periodPnlFull, hf, sumBy] <;>
    first
      | rw [if_pos (show (100:ℚ)⁻¹ < |startTry| from by simpa using hbT)]
      | rw [if_pos (show (10000:ℚ)⁻¹ < |startUsd| from by simpa using hbU)]

/-- C7 witness: with no transactions at all, a 100 → 110 TRY valuation and
a 10 → 11 USD valuation both report a 10% return. -/
theorem C7_witness :
    (periodPnlFull [] 0 10 100 110 10 11).pct_try = 10 ∧
    (periodPnlFull [] 0 10 100 110 10 11).pct_usd = 10 := by
  have h := C7_dietz_noflow [] 0 10 100 110 10 11 (by simp) (by norm_num) (by norm_num)
  refine ⟨?_, ?_⟩
  · rw [h.2.2.1]
    norm_num [pyRound]
  · rw [h.2.2.2]
    norm_num [pyRound]

/-- Python `round` on reals fixes integers. -/
theorem pyRoundR_intCast (n : ℕ) (z : ℤ) : pyRoundR n ((z : ℝ)) = (z : ℝ) := by
  have h1 : ((z : ℝ) * (10:ℝ)^n) = ((z * 10^n : ℤ) : ℝ) := by push_cast; ring
  have h10 : ((10:ℝ))^n ≠ 0 := by positivity
  simp only [pyRoundR, h1, Int.floor_intCast, sub_self]
  rw [if_pos (by norm_num)]
  push_cast
  field_simp

/-- C10: `_inflation_multiplier` is total and degrades silently — with an
empty CPI series both the factor and the multiplier are exactly 1; whenever
the factor is ≤ 0 or > 2 the multiplier is clamped to exactly 1; otherwise
the multiplier is `round(1/factor, 6)`. -/
theorem C10_multiplier_total :
    (∀ e d₁ d₂, inflationFactor [] e d₁ d₂ = 1 ∧ inflationMultiplier [] e d₁ d₂ = 1) ∧
    (∀ c e d₁ d₂, (inflationFactor c e d₁ d₂ ≤ 0 ∨ 2 < inflationFactor c e d₁ d₂) →
      inflationMultiplier c e d₁ d₂ = 1) ∧
    (∀ c e d₁ d₂, 0 < inflationFactor c e d₁ d₂ → inflationFactor c e d₁ d₂ ≤ 2 →
      inflationMultiplier c e d₁ d₂ = pyRoundR 6 (1 / inflationFactor c e d₁ d₂)) := by
  refine ⟨?_, ?_, ?_⟩
  · intro e d₁ d₂
    have hf : inflationFactor [] e d₁ d₂ = 1 := by simp [inflationFactor]
    refine ⟨hf, ?_⟩
    simp only [inflationMultiplier, hf]
    rw [if_neg (by norm_num)]
    rw [show (1 / 1 : ℝ) = ((1 : ℤ) : ℝ) by norm_num, pyRoundR_intCast]
    norm_num
  · intro c e d₁ d₂ hcl
    simp only [inflationMultiplier]
    rw [if_pos hcl]
  · intro c e d₁ d₂ h0 h2
    simp only [inflationMultiplier]
    rw [if_neg]
    rintro (h | h) <;> linarith

/-- C10 witness: the empty CPI series yields multiplier exactly 1. -/
theorem C10_witness : inflationMultiplier [] none c10D c10D = 1 :=
  (C10_multiplier_total.1 none c10D c10D).2

/-- The two sell-side holding updates agree outside the dust window. -/
theorem sell_rec_eq (old : HRec) (q : ℚ) (hq : 0 ≤ q)
    (hnd : old.qty - q = 0 ∨ 1/10000 < old.qty - q) :
    (if 0 < old.qty - q then
        (⟨old.qty - q,
          old.total_cost_usd - q / (old.qty - q + q) * old.total_cost_usd⟩ : HRec)
      else ⟨old.qty - q, 0⟩) =
    (if old.qty - q ≤ 1/10000 then (⟨0, 0⟩ : HRec)
      else ⟨old.qty - q,
        if 0 < old.qty ∧ 0 < q then
          old.total_cost_usd - min (q / old.qty) 1 * old.total_cost_usd
        else old.total_cost_usd⟩) := by
  rcases hnd with h0 | h0
  · rw [if_neg (by rw [h0]; norm_num), if_pos (by rw [h0]; norm_num), h0]
  · have hqlt : q < old.qty := by linarith
    have hop : 0 < old.qty := by linarith
    rw [if_pos (by linarith), if_neg (by linarith)]
    by_cases hq0 : 0 < q
    · rw [if_pos ⟨hop, hq0⟩, min_eq_left (by
        rw [div_le_one hop]
        exact le_of_lt hqlt)]
      have harg : old.qty - q + q = old.qty := by ring
      rw [harg]
    · have hq00 : q = 0 := le_antisymm (not_lt.mp hq0) hq
      rw [if_neg (by rintro ⟨-, hc⟩; exact hq0 hc), hq00]
      norm_num

/-- Outside the dust window, one `_recalculate_portfolio_balances` step
equals one `_replay_state_at_date` step. -/
theorem recalcStep_eq_replayStep (r : RState) (e : Tx) (hq : 0 ≤ e.quantity)
    (hnd : noDustOkB r e = true) : recalcStep r e = replayStep r e := by
  by_cases h1 : e.tx_type = "deposit"
  · simp [recalcStep, replayStep, h1]
  by_cases h2 : e.tx_type = "withdraw"
  · simp [recalcStep, replayStep, h1, h2]
  by_cases h3 : e.tx_type = "buy"
  · simp [recalcStep, replayStep, h1, h2, h3]
  by_cases h4 : e.tx_type = "sell"
  · cases hr : r.holdings e.symbol with
    | none => simp [recalcStep, replayStep, h1, h2, h3, h4, hr]
    | some old =>
      have hnd' : old.qty - e.quantity = 0 ∨ 1/10000 < old.qty - e.quantity := by
        simpa [noDustOkB, h4, hr] using hnd
      simp only [recalcStep, replayStep, h1, h2, h3, h4, reduceIte, String.reduceEq, hr]
      simp only [sell_rec_eq old e.quantity hq hnd']
  by_cases h5 : e.tx_type = "interest_in"
  · simp [recalcStep, replayStep, h1, h2, h3, h4, h5]
  by_cases h6 : e.tx_type = "interest_out"
  · simp [recalcStep, replayStep, h1, h2, h3, h4, h5, h6]
  by_cases h7 : e.tx_type = "exchange"
  · simp [recalcStep, replayStep, h1, h2, h3, h4, h5, h6, h7]
  · simp [recalcStep, replayStep, h1, h2, h3, h4, h5, h6, h7]

/-- Outside the dust window, the recalculation fold equals the replay fold. -/
theorem recalcRun_eq_replayRun (es : List Tx) (hq : ∀ e ∈ es, 0 ≤ e.quantity) :
    ∀ r, noDustRun r es = true → es.foldl recalcStep r = es.foldl replayStep r := by
  induction es with
  | nil => intro r _; rfl
  | cons e rest ih =>
    intro r hnd
    simp only [noDustRun, Bool.and_eq_true] at hnd
    have hstep := recalcStep_eq_replayStep r e (hq e (List.mem_cons_self _ _)) hnd.1
    simp only [List.foldl_cons, hstep]
    exact ih (fun x hx => hq x (List.mem_cons_of_mem _ hx)) (replayStep r e) hnd.2

/-- The rebuilt `Holding` rows are the replay engine's cleaned holdings
viewed as `(quantity, avg_cost_usd)` pairs. -/
theorem recalcFinalHoldings_view (h : Option String → Option HRec) (k : Option String) :
    recalcFinalHoldings h k =
      Option.map (fun rec => (rec.qty,
        if 0 < rec.qty then rec.total_cost_usd / rec.qty else 0)) (cleanHoldings h k) := by
  unfold recalcFinalHoldings cleanHoldings
  cases h k with
  | none => rfl
  | some rec =>
    by_cases hq : 1/10000 < rec.qty <;> simp [hq]

/-- C9 (amended): `delete_transaction` is atomic — on a missing transaction
or a failed timeline validation nothing changes and an error is returned;
on success the transaction is removed and every rebuilt balance equals the
state replayed from zero over the remaining canonical order, and the
rebuilt holdings equal the replayed (cleaned) holdings viewed as
`(quantity, avg_cost)` pairs, provided no sell leaves a residual quantity
in `(0, 1e-4]` (in that dust window the recalculation keeps the residue
while the replay engine clamps it to zero). -/
theorem C9_delete_consistency (p : PState) (txs : List Tx) (txId : ℤ)
    (hq : ∀ e ∈ txs, 0 ≤ e.quantity) :
    ((txs.find? (fun tx => tx.id = txId) = none ∨
        validateTimeline txs (some txId) = false) →
      deleteTransaction p txs txId = (p, txs, false)) ∧
    (∀ tx0, txs.find? (fun tx => tx.id = txId) = some tx0 →
      validateTimeline txs (some txId) = true →
      noDustRun RState.init (canonicalSort (txs.filter (fun tx => tx.id ≠ txId))) = true →
      deleteTransaction p txs txId =
        (⟨(replayList (canonicalSort (txs.filter (fun tx => tx.id ≠ txId)))).cash_usd,
          (replayList (canonicalSort (txs.filter (fun tx => tx.id ≠ txId)))).cash_try,
          (replayList (canonicalSort (txs.filter (fun tx => tx.id ≠ txId)))).interest_usd,
          (replayList (canonicalSort (txs.filter (fun tx => tx.id ≠ txId)))).interest_try,
          (replayList (canonicalSort (txs.filter (fun tx => tx.id ≠ txId)))).total_deposited_usd,
          (replayList (canonicalSort (txs.filter (fun tx => tx.id ≠ txId)))).total_deposited_try,
          fun k => Option.map (fun rec => (rec.qty,
            if 0 < rec.qty then rec.total_cost_usd / rec.qty else 0))
            (cleanHoldings
              (replayList (canonicalSort (txs.filter (fun tx => tx.id ≠ txId)))).holdings k)⟩,
         txs.filter (fun tx => tx.id ≠ txId), true)) := by
  constructor
  · intro hbad
    unfold deleteTransaction
    rcases hbad with hnone | hinv
    · rw [hnone]
    · cases hfind : txs.find? (fun tx => tx.id = txId) with
      | none => rfl
      | some tx0 =>
        rw [hinv]
        rfl
  · intro tx0 hfind hval hnd
    have hqs : ∀ e ∈ canonicalSort (txs.filter (fun tx => tx.id ≠ txId)), 0 ≤ e.quantity := by
      intro e he
      have h1 : e ∈ txs.filter (fun tx => tx.id ≠ txId) :=
        (List.perm_insertionSort _ _).mem_iff.mp he
      exact hq e (List.mem_of_mem_filter h1)
    have hfold := recalcRun_eq_replayRun
      (canonicalSort (txs.filter (fun tx => tx.id ≠ txId))) hqs RState.init hnd
    have hview : recalcFinalHoldings
        (replayList (canonicalSort (txs.filter (fun tx => tx.id ≠ txId)))).holdings =
        fun k => Option.map (fun rec => (rec.qty,
          if 0 < rec.qty then rec.total_cost_usd / rec.qty else 0))
          (cleanHoldings
            (replayList (canonicalSort (txs.filter (fun tx => tx.id ≠ txId)))).holdings k) := by
      funext k
      exact recalcFinalHoldings_view _ k
    simp only [deleteTransaction, hfind, hval, recalcPortfolio, if_true]
    rw [hfold]
    rw [show List.foldl replayStep RState.init
          (canonicalSort (txs.filter (fun tx => tx.id ≠ txId)))
        = replayList (canonicalSort (txs.filter (fun tx => tx.id ≠ txId))) from rfl]
    rw [hview]

/-- C9 counterexample: deleting the trailing deposit passes validation and
succeeds, but the rebuilt AAPL quantity is 1.00001 (the recalculation keeps
the 1e-5 dust left by the sell) while replaying the remaining list from
zero gives quantity 1 (the replay engine clamps the dust), so the rebuilt
holdings do not equal the replayed state. -/
theorem C9_counterexample :
    (deleteTransaction PState.init [c9x1, c9x2, c9x3, c9x4, c9x5] 5).2.2 = true ∧
    ((deleteTransaction PState.init [c9x1, c9x2, c9x3, c9x4, c9x5] 5).1.holdings
        (some "AAPL")).map Prod.fst = some (100001/100000) ∧
    RState.qtyOf (replayList (canonicalSort
        ([c9x1, c9x2, c9x3, c9x4, c9x5].filter (fun tx => tx.id ≠ 5)))) (some "AAPL") = 1 := by
  refine ⟨?_, ?_, ?_⟩ <;>
    · simp +decide [deleteTransaction, validateTimeline, tlValidateEntries, tlRun, tlStep,
        canonicalSort, keyLE, Tx.sortKey, List.insertionSort, List.orderedInsert,
        recalcPortfolio, recalcStep, recalcFinalHoldings, replayList, replayStep,
        RState.init, PState.init, VState.init, RState.qtyOf, tradeIsTry, symTruthy,
        c9x1, c9x2, c9x3, c9x4, c9x5]
      try norm_num
      try exact ⟨220000/100001, by norm_num [recalcFinalHoldings]⟩

/-- C9 witness: deleting the withdrawal succeeds and the rebuilt TRY cash
equals the replay of the remaining history. -/
theorem C9_witness :
    (deleteTransaction PState.init [c9wDep, c9wWd] 2).1.cash_try =
      (replayList (canonicalSort ([c9wDep, c9wWd].filter (fun tx => tx.id ≠ 2)))).cash_try ∧
    (deleteTransaction PState.init [c9wDep, c9wWd] 2).2.2 = true := by
  have h := (C9_delete_consistency PState.init [c9wDep, c9wWd] 2
      (by intro e he; fin_cases he <;> decide)).2 c9wWd
      (by decide)
      (by simp +decide [validateTimeline, tlValidateEntries, tlRun, tlStep,
            canonicalSort, keyLE, Tx.sortKey, List.insertionSort, List.orderedInsert,
            c9wDep, c9wWd, VState.init])
      (by simp +decide [noDustRun, noDustOkB, canonicalSort, keyLE, Tx.sortKey,
            List.insertionSort, List.orderedInsert, c9wDep, c9wWd])
  constructor
  · rw [h]
  · rw [h]

/-- Every calendar quarter spans a positive number of days. -/
theorem quarterLen_pos (qi : ℤ) : 0 < quarterStartD (qi + 1) - quarterStartD qi := by
  have hr0 : 0 ≤ qi % 4 := Int.emod_nonneg qi (by norm_num)
  have hr4 : qi % 4 < 4 := Int.emod_lt_of_pos qi (by norm_num)
  have hcases : qi % 4 = 0 ∨ qi % 4 = 1 ∨ qi % 4 = 2 ∨ qi % 4 = 3 := by omega
  rcases hcases with h | h | h | h
  · have h1 : (qi + 1) % 4 = 1 := by omega
    have h2 : (qi + 1) / 4 = qi / 4 := by omega
    simp only [quarterStartD, h, h1, h2, Date.dayNumber, daysBeforeMonth]
    norm_num
    by_cases hL : isLeap (qi / 4) = true <;> simp [hL]
  · have h1 : (qi + 1) % 4 = 2 := by omega
    have h2 : (qi + 1) / 4 = qi / 4 := by omega
    simp only [quarterStartD, h, h1, h2, Date.dayNumber, daysBeforeMonth]
    norm_num
  · have h1 : (qi + 1) % 4 = 3 := by omega
    have h2 : (qi + 1) / 4 = qi / 4 := by omega
    simp only [quarterStartD, h, h1, h2, Date.dayNumber, daysBeforeMonth]
    norm_num
  · have h1 : (qi + 1) % 4 = 0 := by omega
    have h2 : (qi + 1) / 4 = qi / 4 + 1 := by omega
    simp only [quarterStartD, h, h1, h2, Date.dayNumber, daysBeforeMonth, leapsUpTo]
    norm_num
    generalize qi / 4 = y
    by_cases hL : isLeap y = true
    · rw [if_pos hL]
      simp only [isLeap, Bool.or_eq_true, Bool.and_eq_true, decide_eq_true_eq,
        bne_iff_ne, ne_eq] at hL
      omega
    · rw [if_neg hL]
      simp only [isLeap, Bool.or_eq_true, Bool.and_eq_true, decide_eq_true_eq,
        bne_iff_ne, ne_eq] at hL
      push_neg at hL
      omega

/-- The quarter walk splits multiplicatively. -/
theorem inflationLoop_add (cpi : ℤ → Option ℚ) (e : Option ℚ)
    (fd td fq tq : ℤ) (n m : ℕ) (c : ℤ) :
    inflationLoop cpi e fd td fq tq (n + m) c =
      inflationLoop cpi e fd td fq tq n c *
        inflationLoop cpi e fd td fq tq m (c + n) := by
  induction n generalizing c with
  | zero => simp [inflationLoop]
  | succ k ih =>
    have hsucc : (k + 1) + m = (k + m) + 1 := by omega
    rw [hsucc]
    simp only [inflationLoop]
    rw [ih (c + 1)]
    have harg : c + 1 + (k : ℤ) = c + ((k : ℤ) + 1) := by ring
    rw [harg]
    push_cast
    ring

/-- The quarter walk only depends on the contributions of the visited
quarters. -/
theorem inflationLoop_congr (cpi : ℤ → Option ℚ) (e : Option ℚ)
    (fd₁ td₁ fq₁ tq₁ fd₂ td₂ fq₂ tq₂ : ℤ) (n : ℕ) (c : ℤ)
    (h : ∀ k : ℕ, k < n → quarterContrib cpi e fd₁ td₁ fq₁ tq₁ (c + k) =
      quarterContrib cpi e fd₂ td₂ fq₂ tq₂ (c + k)) :
    inflationLoop cpi e fd₁ td₁ fq₁ tq₁ n c =
      inflationLoop cpi e fd₂ td₂ fq₂ tq₂ n c := by
  induction n generalizing c with
  | zero => rfl
  | succ k ih =>
    simp only [inflationLoop]
    have h0 : quarterContrib cpi e fd₁ td₁ fq₁ tq₁ c =
        quarterContrib cpi e fd₂ td₂ fq₂ tq₂ c := by
      simpa using h 0 (by omega)
    rw [h0]
    congr 1
    refine ih (c + 1) ?_
    intro j hj
    have hh := h (j + 1) (by omega)
    have harg : c + ((j + 1 : ℕ) : ℤ) = (c + 1) + (j : ℤ) := by push_cast; ring
    rw [harg] at hh
    exact hh

/-- A quarter that is the to-quarter of neither walk contributes
identically to both. -/
theorem contrib_eq_of_ne_to (cpi : ℤ → Option ℚ) (e : Option ℚ)
    (fd fq td₁ tq₁ td₂ tq₂ curr : ℤ)
    (h₁ : curr ≠ tq₁) (h₂ : curr ≠ tq₂) :
    quarterContrib cpi e fd td₁ fq tq₁ curr =
      quarterContrib cpi e fd td₂ fq tq₂ curr := by
  unfold quarterContrib
  by_cases hpub : (cpiTruthy (cpi curr) && cpiTruthy (cpi (curr - 1)) &&
      decide (0 < cpiVal (cpi (curr - 1)))) = true
  · rw [if_pos hpub, if_pos hpub]
    by_cases hfq : curr = fq
    · simp [hfq]
    · simp [hfq, h₁, h₂]
  · rw [if_neg hpub, if_neg hpub]
    simp [h₁, h₂]

/-- A quarter that is the from-quarter of neither walk contributes
identically to both. -/
theorem contrib_eq_of_ne_from (cpi : ℤ → Option ℚ) (e : Option ℚ)
    (td tq fd₁ fq₁ fd₂ fq₂ curr : ℤ)
    (h₁ : curr ≠ fq₁) (h₂ : curr ≠ fq₂) :
    quarterContrib cpi e fd₁ td fq₁ tq curr =
      quarterContrib cpi e fd₂ td fq₂ tq curr := by
  unfold quarterContrib
  by_cases hpub : (cpiTruthy (cpi curr) && cpiTruthy (cpi (curr - 1)) &&
      decide (0 < cpiVal (cpi (curr - 1)))) = true
  · rw [if_pos hpub, if_pos hpub]
    simp [h₁, h₂]
  · rw [if_neg hpub, if_neg hpub]

/-- The split quarter: the to-quarter contribution of the first walk times
the from-quarter contribution of the second walk equals the interior
contribution of the combined walk. -/
theorem contrib_middle (cpi : ℤ → Option ℚ) (e : Option ℚ)
    (d0 d1 d2 : ℤ) (q0 q1 q2 : ℤ) (c p : ℚ)
    (hc : cpi q1 = some c) (hp : cpi (q1 - 1) = some p) (hc0 : 0 < c) (hp0 : 0 < p)
    (h01 : q0 ≠ q1) (h12 : q1 ≠ q2) :
    quarterContrib cpi e d0 d1 q0 q1 q1 * quarterContrib cpi e d1 d2 q1 q2 q1 =
      quarterContrib cpi e d0 d2 q0 q2 q1 := by
  have htot := quarterLen_pos q1
  have hT0 : ((quarterStartD (q1 + 1) - quarterStartD q1 : ℤ) : ℚ) ≠ 0 := by
    exact_mod_cast ne_of_gt htot
  have hcond : (cpiTruthy (cpi q1) && cpiTruthy (cpi (q1 - 1)) &&
      decide (0 < cpiVal (cpi (q1 - 1)))) = true := by
    simp [cpiTruthy, cpiVal, hc, hp, hc0.ne', hp0.ne', hp0]
  have h10 : ¬(q1 = q0) := Ne.symm h01
  unfold quarterContrib
  rw [if_pos hcond, if_pos hcond, if_pos hcond]
  simp only [hc, hp, cpiVal, Option.getD_some, h10, h12, htot, eq_self_iff_true,
    if_true, if_false, ite_true, ite_false, iff_false, Rat.cast_div]
  have hbase0 : (0 : ℝ) < ((c : ℝ) / (p : ℝ)) :=
    div_pos (by exact_mod_cast hc0) (by exact_mod_cast hp0)
  rw [← Real.rpow_add hbase0]
  congr 1
  push_cast
  field_simp
  try ring

/-- The quarter walk from `q0` to `q2` splits at an interior quarter `q1`
with published positive CPI for `q1` and `q1 - 1`. -/
theorem inflationLoop_compose (F : ℤ → Option ℚ) (e : Option ℚ)
    (d0 d1 d2 q0 q1 q2 : ℤ) (c p : ℚ)
    (hc : F q1 = some c) (hp : F (q1 - 1) = some p)
    (hc0 : 0 < c) (hp0 : 0 < p) (h01 : q0 < q1) (h12 : q1 < q2) :
    inflationLoop F e d0 d2 q0 q2 (q2 - q0 + 1).toNat q0 =
      inflationLoop F e d0 d1 q0 q1 (q1 - q0 + 1).toNat q0 *
        inflationLoop F e d1 d2 q1 q2 (q2 - q1 + 1).toNat q1 := by
  obtain ⟨N1, hN1⟩ : ∃ n : ℕ, (n : ℤ) = q1 - q0 := ⟨(q1 - q0).toNat, by omega⟩
  obtain ⟨N2, hN2⟩ : ∃ n : ℕ, (n : ℤ) = q2 - q1 := ⟨(q2 - q1).toNat, by omega⟩
  have hq0N1 : q0 + (N1 : ℤ) = q1 := by omega
  have hfuelC : (q2 - q0 + 1).toNat = N1 + (N2 + 1) := by omega
  have hfuel1 : (q1 - q0 + 1).toNat = N1 + 1 := by omega
  have hfuel2 : (q2 - q1 + 1).toNat = N2 + 1 := by omega
  rw [hfuelC, hfuel1, hfuel2]
  rw [inflationLoop_add F e d0 d2 q0 q2 N1 (N2 + 1) q0]
  rw [show N1 + 1 = N1 + (0 + 1) from rfl]
  rw [inflationLoop_add F e d0 d1 q0 q1 N1 (0 + 1) q0]
  rw [hq0N1]
  simp only [inflationLoop]
  have hseg1 : inflationLoop F e d0 d2 q0 q2 N1 q0 =
      inflationLoop F e d0 d1 q0 q1 N1 q0 := by
    refine inflationLoop_congr F e d0 d2 q0 q2 d0 d1 q0 q1 N1 q0 ?_
    intro k hk
    exact contrib_eq_of_ne_to F e d0 q0 d2 q2 d1 q1 (q0 + k)
      (by omega) (by omega)
  have hseg2 : inflationLoop F e d0 d2 q0 q2 N2 (q1 + 1) =
      inflationLoop F e d1 d2 q1 q2 N2 (q1 + 1) := by
    refine inflationLoop_congr F e d0 d2 q0 q2 d1 d2 q1 q2 N2 (q1 + 1) ?_
    intro k hk
    exact contrib_eq_of_ne_from F e d2 q2 d0 q0 d1 q1 (q1 + 1 + k)
      (by omega) (by omega)
  have hmid : quarterContrib F e d0 d1 q0 q1 q1 *
      quarterContrib F e d1 d2 q1 q2 q1 =
        quarterContrib F e d0 d2 q0 q2 q1 :=
    contrib_middle F e d0 d1 d2 q0 q1 q2 c p hc hp hc0 hp0
      (by omega) (by omega)
  rw [hseg1, hseg2, ← hmid]
  ring

/-- C8 (amended): when `t0`, `t1`, `t2` lie in strictly increasing quarters
and the CPI of `t1`'s quarter and of the quarter before it are published and
positive, `_get_inflation_factor` composes exactly:
`factor(t0,t2) = factor(t0,t1) * factor(t1,t2)`; consequently, whenever the
combined factor is accepted by `_inflation_multiplier`'s clamp
(`0 < factor ≤ 2`), the multiplier over the whole range is the 6-decimal
rounding of the exact composed value `1 / (factor(t0,t1) * factor(t1,t2))` —
i.e. the multiplier composes up to a single final rounding, not as a product
of the two individually rounded multipliers. -/
theorem C8_amended (cpiData : List CpiEntry) (e : Option ℚ) (t0 t1 t2 : Date)
    (c p : ℚ) (hne : cpiData ≠ [])
    (h01 : t0.qIdx < t1.qIdx) (h12 : t1.qIdx < t2.qIdx)
    (hc : cpiLookup cpiData t1.qIdx = some c)
    (hp : cpiLookup cpiData (t1.qIdx - 1) = some p)
    (hc0 : 0 < c) (hp0 : 0 < p) :
    inflationFactor cpiData e t0 t2 =
      inflationFactor cpiData e t0 t1 * inflationFactor cpiData e t1 t2 ∧
    (0 < inflationFactor cpiData e t0 t2 → inflationFactor cpiData e t0 t2 ≤ 2 →
      inflationMultiplier cpiData e t0 t2 =
        pyRoundR 6 (1 / (inflationFactor cpiData e t0 t1 *
          inflationFactor cpiData e t1 t2))) := by
  have eC : inflationFactor cpiData e t0 t2 =
      inflationLoop (cpiLookup cpiData) e t0.dayNumber t2.dayNumber
        t0.qIdx t2.qIdx (t2.qIdx - t0.qIdx + 1).toNat t0.qIdx := by
    simp only [inflationFactor, if_neg hne]
  have e1 : inflationFactor cpiData e t0 t1 =
      inflationLoop (cpiLookup cpiData) e t0.dayNumber t1.dayNumber
        t0.qIdx t1.qIdx (t1.qIdx - t0.qIdx + 1).toNat t0.qIdx := by
    simp only [inflationFactor, if_neg hne]
  have e2 : inflationFactor cpiData e t1 t2 =
      inflationLoop (cpiLookup cpiData) e t1.dayNumber t2.dayNumber
        t1.qIdx t2.qIdx (t2.qIdx - t1.qIdx + 1).toNat t1.qIdx := by
    simp only [inflationFactor, if_neg hne]
  have hmain : inflationFactor cpiData e t0 t2 =
      inflationFactor cpiData e t0 t1 * inflationFactor cpiData e t1 t2 := by
    rw [eC, e1, e2]
    exact inflationLoop_compose (cpiLookup cpiData) e
      t0.dayNumber t1.dayNumber t2.dayNumber t0.qIdx t1.qIdx t2.qIdx
      c p hc hp hc0 hp0 h01 h12
  refine ⟨hmain, ?_⟩
  intro hpos hle
  simp only [inflationMultiplier]
  rw [if_neg (by push_neg; exact ⟨hpos, hle⟩)]
  rw [hmain]

/-- C8 witness: three dates in Q1, Q2 and Q3 of 2023 with a fully published
CPI series; the factor composes exactly. -/
theorem C8_witness :
    inflationFactor cpiW none w0 w2 =
      inflationFactor cpiW none w0 w1 * inflationFactor cpiW none w1 w2 ∧
    (0 < inflationFactor cpiW none w0 w2 → inflationFactor cpiW none w0 w2 ≤ 2 →
      inflationMultiplier cpiW none w0 w2 =
        pyRoundR 6 (1 / (inflationFactor cpiW none w0 w1 *
          inflationFactor cpiW none w1 w2))) :=
  C8_amended cpiW none w0 w1 w2 104 102 (by decide) (by decide) (by decide)
    (by decide) (by decide) (by decide) (by decide)

/-- With `cexCpi`, the inflation factor over the degenerate range
`[cexD, cexD]` is `(400/100) ^ (-45/90) = 1/2`: the from-quarter branch wins
over the to-quarter branch, so the exponent covers the days from `cexD` to
the END of the quarter, not the empty range `[cexD, cexD]`. -/
theorem cex_factor : inflationFactor cexCpi none cexD cexD = 1 / 2 := by
  have h1 : cpiLookup cexCpi 8092 = some 400 := by decide
  have h2 : cpiLookup cexCpi (8092 - 1) = some 100 := by decide
  have h3 : quarterStartD (8092 + 1) = 738611 := by decide
  have h4 : quarterStartD 8092 = 738521 := by decide
  have hq : Date.qIdx cexD = 8092 := by decide
  have hd : Date.dayNumber cexD = 738566 := by decide
  have hne : cexCpi ≠ [] := by decide
  simp only [inflationFactor, if_neg hne, hq, hd]
  norm_num
  simp only [inflationLoop, quarterContrib, h1, h2, h3, h4, cpiTruthy, cpiVal,
    Option.getD_some]
  norm_num
  rw [Real.rpow_neg (by norm_num : (0 : ℝ) ≤ 4)]
  rw [show (4 : ℝ) = 2 ^ (2 : ℕ) by norm_num, ← Real.rpow_natCast 2 2,
    ← Real.rpow_mul (by norm_num : (0 : ℝ) ≤ 2)]
  norm_num

/-- C8 counterexample: take `t0 = t1 = t2 = cexD` (so `t0 ≤ t1 ≤ t2`), with
the only touched quarter (and its predecessor, used as the base) published in
`cexCpi`.  The multiplier over `[t0, t2]` is 2, while the claimed composition
`multiplier(t0,t1) * multiplier(t1,t2)` is 4 — not approximately equal.  The
degenerate range is not a fixed point because the from-quarter branch of
`_get_inflation_factor` always measures to the end of the quarter. -/
theorem C8_counterexample :
    inflationMultiplier cexCpi none cexD cexD = 2 ∧
    inflationMultiplier cexCpi none cexD cexD *
        inflationMultiplier cexCpi none cexD cexD = 4 := by
  have hm : inflationMultiplier cexCpi none cexD cexD = 2 := by
    simp only [inflationMultiplier, cex_factor]
    rw [if_neg (by norm_num)]
    rw [show (1 / ((1 : ℝ) / 2)) = ((2 : ℤ) : ℝ) by norm_num]
    rw [pyRoundR_intCast]
    norm_num
  exact ⟨hm, by rw [hm]; norm_num⟩

end Invest

